import Mathlib

/-!
Verification development for the procedural asset generator
(`scripts/generate_assets.py`): color math, config validation,
pixel-grid synthesis and shelf packing.

Modelling conventions.

* Python machine floats are idealized as exact rationals (`ℚ`) except where
  a value is genuinely irrational (`math.sqrt`, the WCAG `** 2.4`
  linearization), where the exact-real idealization uses `ℝ`.
  For every concrete input appearing in a theorem below the idealized value
  is far from every rounding/branch boundary, so the idealization agrees
  with the float computation there.
* Python `int(x)` (truncation toward zero) is `pyIntQ` / `pyIntR`.
* Python `%` on numbers (floor-mod, sign of divisor) is `qmod` for `ℚ`
  and `Int.emod` for integers (both divisors used are positive).
* A Python function that can raise (`ValueError` from `int(_, 16)`,
  `IndexError` from `palette[0]`) is embedded with an `Option` result;
  `none` models the raised exception.
* `numpy` grids indexed `grid[y, x]` are embedded as functions `ℕ → ℕ → Rgba`
  (the loops in the source write each cell once, independently, from the
  formula recorded in the corresponding branch).
-/

namespace AssetGen

/-- RGBA pixel with 8-bit channels, the value produced by `hex_to_rgba`. -/
structure Rgba where
  r : ℕ
  g : ℕ
  b : ℕ
  a : ℕ
deriving DecidableEq, Repr

/-- Value of one hexadecimal digit, as accepted by Python `int(_, 16)`
(case-insensitive); `none` for a non-hex character. -/
def hexDigitVal (c : Char) : Option ℕ :=
  if c = '0' then some 0 else if c = '1' then some 1
  else if c = '2' then some 2 else if c = '3' then some 3
  else if c = '4' then some 4 else if c = '5' then some 5
  else if c = '6' then some 6 else if c = '7' then some 7
  else if c = '8' then some 8 else if c = '9' then some 9
  else if c = 'a' ∨ c = 'A' then some 10
  else if c = 'b' ∨ c = 'B' then some 11
  else if c = 'c' ∨ c = 'C' then some 12
  else if c = 'd' ∨ c = 'D' then some 13
  else if c = 'e' ∨ c = 'E' then some 14
  else if c = 'f' ∨ c = 'F' then some 15
  else none

/-- Python `int(s, 16)` on a two-character slice of hex digits.
(`int(_, 16)` also tolerates signs/whitespace; such strings are not hex
color digit pairs and are mapped to `none` here.) -/
def parseHexByte (c1 c2 : Char) : Option ℕ := do
  let v1 ← hexDigitVal c1
  let v2 ← hexDigitVal c2
  pure (16 * v1 + v2)

/-- The digit stage of `hex_to_rgba` (source lines 58-69), after the
leading `#` characters are stripped: parse `RRGGBB` (alpha 255) or
`RRGGBBAA`; any other length, or a non-hex digit, raises `ValueError`
(= `none`). -/
def hexCharsToRgba : List Char → Option Rgba
  | [r1, r2, g1, g2, b1, b2] => do
      let r ← parseHexByte r1 r2
      let g ← parseHexByte g1 g2
      let b ← parseHexByte b1 b2
      pure ⟨r, g, b, 255⟩
  | [r1, r2, g1, g2, b1, b2, a1, a2] => do
      let r ← parseHexByte r1 r2
      let g ← parseHexByte g1 g2
      let b ← parseHexByte b1 b2
      let a ← parseHexByte a1 a2
      pure ⟨r, g, b, a⟩
  | _ => none

/-- `hex_to_rgba` (source lines 54-71): strip leading `#` characters
(`str.lstrip('#')` removes every leading `#`), then parse the digits. -/
def hex_to_rgba (s : String) : Option Rgba :=
  hexCharsToRgba (s.data.dropWhile (fun c => c = '#'))

/-- Lowercase hex digit for a value `0..15` (the `x` format of `f"{n:02x}"`). -/
def toHexDigit (n : ℕ) : Char :=
  if n = 0 then '0' else if n = 1 then '1'
  else if n = 2 then '2' else if n = 3 then '3'
  else if n = 4 then '4' else if n = 5 then '5'
  else if n = 6 then '6' else if n = 7 then '7'
  else if n = 8 then '8' else if n = 9 then '9'
  else if n = 10 then 'a' else if n = 11 then 'b'
  else if n = 12 then 'c' else if n = 13 then 'd'
  else if n = 14 then 'e' else 'f'

/-- Two-digit lowercase hex of a byte, Python `f"{n:02x}"` for `n ≤ 255`. -/
def byteToHex (n : ℕ) : List Char :=
  [toHexDigit (n / 16 % 16), toHexDigit (n % 16)]

/-- `rgb_to_hex` (source lines 73-75): `f"#{r:02x}{g:02x}{b:02x}"`,
lowercase, no alpha. All call sites pass channels in `0..255`. -/
def rgb_to_hex (r g b : ℕ) : String :=
  String.mk ('#' :: (byteToHex r ++ byteToHex g ++ byteToHex b))

/-- Python `int(q)`: truncation toward zero. -/
def pyIntQ (q : ℚ) : ℤ :=
  if 0 ≤ q then ⌊q⌋ else ⌈q⌉

/-- Python `%` on rationals (result has the sign of the divisor; only
positive divisors occur in the source). Division by zero does not occur
at any call site. -/
def qmod (a b : ℚ) : ℚ :=
  a - b * ⌊a / b⌋

/-- Inner helper `hue_to_rgb` of `hsl_to_rgb` (source lines 82-93). -/
def hue_to_rgb (p q t0 : ℚ) : ℚ :=
  let t1 := if t0 < 0 then t0 + 1 else t0
  let t := if t1 > 1 then t1 - 1 else t1
  if t < 1/6 then p + (q - p) * 6 * t
  else if t < 1/2 then q
  else if t < 2/3 then p + (q - p) * (2/3 - t) * 6
  else p

/-- `hsl_to_rgb` (source lines 77-101): piecewise HSL-to-RGB on `[0,1]`
ranges, channels scaled by 255 and truncated (`int(r * 255)`, never
rounded). At every call site the channel values are in `[0,1]`, so the
truncation is `Int.toNat ∘ pyIntQ`. -/
def hsl_to_rgb (h s l : ℚ) : ℕ × ℕ × ℕ :=
  let (r, g, b) :=
    if s = 0 then (l, l, l)
    else
      let q := if l < 1/2 then l * (1 + s) else l + s - l * s
      let p := 2 * l - q
      (hue_to_rgb p q (h + 1/3), hue_to_rgb p q h, hue_to_rgb p q (h - 1/3))
  ((pyIntQ (r * 255)).toNat, (pyIntQ (g * 255)).toNat, (pyIntQ (b * 255)).toNat)

/-- RGB-to-HSL computation inlined in `rotate_hue` (source lines 108-130):
given 8-bit channels, the hue in degrees, saturation and lightness.
`h` uses the Python float `%` (floor-mod) on the red-max branch. -/
def hslOfRgb (r g b : ℕ) : ℚ × ℚ × ℚ :=
  let rn : ℚ := r / 255
  let gn : ℚ := g / 255
  let bn : ℚ := b / 255
  let cmax := max rn (max gn bn)
  let cmin := min rn (min gn bn)
  let delta := cmax - cmin
  let h0 :=
    if delta = 0 then 0
    else if cmax = rn then qmod ((gn - bn) / delta) 6
    else if cmax = gn then (bn - rn) / delta + 2
    else (rn - gn) / delta + 4
  let h := h0 * 60
  let s := if cmax = 0 then 0 else delta / cmax
  let l := (cmax + cmin) / 2
  (h, s, l)

/-- `rotate_hue` (source lines 103-137): parse the hex color (alpha is
read and then discarded), convert to HSL, add `degrees` mod 360, convert
back and re-encode as a 6-digit lowercase hex color. -/
def rotate_hue (hex_color : String) (degrees : ℚ) : Option String := do
  let c ← hex_to_rgba hex_color
  let (h, s, l) := hslOfRgb c.r c.g c.b
  let h2 := qmod (h + degrees) 360
  let (r, g, b) := hsl_to_rgb (h2 / 360) s l
  pure (rgb_to_hex r g b)

/-- sRGB channel linearization used by the WCAG luminance (source lines
149-151); the exponent `2.4` forces the exact-real (`ℝ`) idealization. -/
noncomputable def srgbLin (x : ℝ) : ℝ :=
  if x ≤ 0.03928 then x / 12.92 else ((x + 0.055) / 1.055) ^ (2.4 : ℝ)

/-- Inner `luminance` of `check_contrast_ratio` (source lines 141-153):
WCAG relative luminance of a hex color; `none` models the `ValueError`
raised on an unparseable color. -/
noncomputable def luminance (hex_color : String) : Option ℝ := do
  let c ← hex_to_rgba hex_color
  pure (0.2126 * srgbLin ((c.r : ℝ) / 255) + 0.7152 * srgbLin ((c.g : ℝ) / 255)
        + 0.0722 * srgbLin ((c.b : ℝ) / 255))

/-- `check_contrast_ratio` (source lines 139-161): WCAG contrast ratio
`(lighter + 0.05) / (darker + 0.05)` of two hex colors. -/
noncomputable def checkContrast (color1 color2 : String) : Option ℝ := do
  let l1 ← luminance color1
  let l2 ← luminance color2
  pure ((max l1 l2 + 0.05) / (min l1 l2 + 0.05))

/-- One asset entry of the parsed configuration document as read by
`validate_config` (keys `size`, `type`, `palette`; the dict key is `name`).
`size` is a two-element array per the schema. -/
structure RawAsset where
  name : String
  type : String
  size : ℤ × ℤ
  palette : List String

/-- One accumulated validation failure. The source appends a formatted
message string per failure; this model keeps the failure itself (same
multiplicity, same order), since no claim depends on the message text. -/
inductive VError where
  | sizeDiv4 (name : String) (w h : ℤ)
  | maxDim (name : String) (m : ℤ)
  | lowContrast (name : String)
deriving DecidableEq, Repr

/-- The per-kind minimum contrast of check 3 (source lines 242-250):
tile 1.5, npc 2.0, every other type 1.8. -/
noncomputable def minContrast (ty : String) : ℝ :=
  if ty = "tile" then 1.5 else if ty = "npc" then 2.0 else 1.8

/-- Check 3's loop `for i in range(len(palette) - 1)` visits exactly the
consecutive palette pairs, in order. -/
def adjPairs (palette : List String) : List (String × String) :=
  palette.zip palette.tail

/-- Contrast errors of one asset (source lines 252-256): one `lowContrast`
entry per adjacent pair whose ratio is below the kind's minimum; `none`
models a `ValueError` escaping from `check_contrast_ratio`. -/
noncomputable def contrastErrs (name ty : String) (palette : List String) :
    Option (List VError) :=
  ((adjPairs palette).mapM (fun p =>
      (checkContrast p.1 p.2).map (fun r =>
        if r < minContrast ty then [VError.lowContrast name] else []))).map
    List.flatten

/-- `validate_config` (source lines 217-258): for each asset, in document
order, append check 1 (both size dimensions divisible by 4, one message),
check 2 (max dimension at most 128), and, only when the palette has more
than one color, check 3 on adjacent pairs. `none` models an escaping
exception (which business-rule violations never cause). -/
noncomputable def validate_config (assets : List RawAsset) :
    Option (List VError) :=
  (assets.mapM (fun a =>
    let e1 := if a.size.1 % 4 ≠ 0 ∨ a.size.2 % 4 ≠ 0 then
        [VError.sizeDiv4 a.name a.size.1 a.size.2] else []
    let e2 := if 128 < max a.size.1 a.size.2 then
        [VError.maxDim a.name (max a.size.1 a.size.2)] else []
    (if 1 < a.palette.length then contrastErrs a.name a.type a.palette
     else pure []).map (fun e3 => e1 ++ e2 ++ e3))).map List.flatten

/-- Python `int.bit_length()`: the bit length of the absolute value. -/
def pyBitLength (n : ℤ) : ℕ :=
  Nat.size n.natAbs

/-- `next_power_of_2` (source lines 163-165):
`1 << (int(n) - 1).bit_length()`. The argument is a Python float; its
`int()` truncation is taken here on the exact rational. -/
def next_power_of_2 (n : ℚ) : ℕ :=
  1 <<< pyBitLength (pyIntQ n - 1)

/-- Python `int(x)` on a real value: truncation toward zero. -/
noncomputable def pyIntR (x : ℝ) : ℤ :=
  if 0 ≤ x then ⌊x⌋ else ⌈x⌉

/-- The initial atlas side of `pack_sprites` (source lines 345-352):
`next_power_of_2(int(math.sqrt(total_area) * 1.2))` — note the source
multiplies the square root by 1.2, it does not inflate the area. -/
noncomputable def atlas_size_init (total_area : ℕ) : ℕ :=
  next_power_of_2 ((pyIntR (Real.sqrt total_area * 1.2) : ℤ) : ℚ)

/-- The atlas growth step of `pack_sprites` (source line 372):
`next_power_of_2(atlas_size * 1.5)`. -/
def growAtlas (atlas_size : ℕ) : ℕ :=
  next_power_of_2 ((atlas_size : ℚ) * 1.5)

/-- A sprite as seen by the packer: its dict key and the grid's
`shape[1], shape[0]` (width, height). `pack_sprites` reads nothing else
from the pixel grid when computing placements. -/
abbrev Sprite := String × ℕ × ℕ

/-- Width of a packer sprite. -/
def Sprite.w (s : Sprite) : ℕ := s.2.1

/-- Height of a packer sprite (`grid.shape[0]`, the sort key). -/
def Sprite.h (s : Sprite) : ℕ := s.2.2

/-- The comparison of `sorted(sprites.items(), key=lambda x: x[1].shape[0],
reverse=True)`: `a` may precede `b` iff `b`'s height is at most `a`'s.
Python's `sorted` is stable: ties keep insertion order, which is exactly
`List.insertionSort` with this relation. -/
def byDescH (a b : Sprite) : Prop := b.h ≤ a.h

instance : DecidableRel byDescH := fun a b => by
  unfold byDescH; infer_instance

instance : IsTotal Sprite byDescH := ⟨fun a b => le_total b.h a.h⟩

instance : IsTrans Sprite byDescH := ⟨fun _ _ _ h1 h2 => le_trans h2 h1⟩

/-- The stable height-descending sort of `pack_sprites` (source lines
339-343). -/
def sortDesc (sprites : List Sprite) : List Sprite :=
  List.insertionSort byDescH sprites

/-- `total_area` of `pack_sprites` (source lines 346-350):
the sum of `w * h` over all sprites. -/
def totalArea (sprites : List Sprite) : ℕ :=
  (sprites.map (fun s => s.w * s.h)).sum

/-- One placement record of `pack_sprites` (the `frames[name]["frame"]`
rectangle; the remaining manifest fields are copies of `w`, `h` and the
config's anchor). -/
structure Frame where
  name : String
  x : ℕ
  y : ℕ
  w : ℕ
  h : ℕ
deriving DecidableEq, Repr

/-- The packer's walk state: current atlas side, cursor, current row
height, the frames recorded so far, and (for the growth claims) the list
of `(old side, new side)` growth events. -/
structure PackState where
  size : ℕ
  x : ℕ
  y : ℕ
  rowH : ℕ
  frames : List Frame
  growths : List (ℕ × ℕ)
deriving DecidableEq, Repr

/-- One iteration of the placement loop of `pack_sprites` (source lines
360-417): row break when the sprite would pass the current atlas width,
a single growth step when it would pass the atlas height, then record the
frame and advance the cursor. -/
def packStep (st : PackState) (s : Sprite) : PackState :=
  let st1 := if st.size < st.x + s.w then
      { st with x := 0, y := st.y + st.rowH, rowH := 0 } else st
  let st2 := if st1.size < st1.y + s.h then
      { st1 with size := growAtlas st1.size,
                 growths := st1.growths ++ [(st1.size, growAtlas st1.size)] }
    else st1
  { st2 with frames := st2.frames ++ [⟨s.1, st2.x, st2.y, s.w, s.h⟩],
             x := st2.x + s.w,
             rowH := max st2.rowH s.h }

/-- The placement loop, starting from a given initial atlas side. -/
def packFrom (size0 : ℕ) (sprites : List Sprite) : PackState :=
  sprites.foldl packStep ⟨size0, 0, 0, 0, [], []⟩

/-- `pack_sprites` (source lines 336-419) restricted to what it computes
from sprite shapes: sort stably by descending height, size the initial
atlas from the total area, then place greedily shelf by shelf. -/
noncomputable def pack_sprites (sprites : List Sprite) : PackState :=
  packFrom (atlas_size_init (totalArea sprites)) (sortDesc sprites)

/-- `AssetConfig` (source lines 24-33): the parsed configuration of one
asset. (`SceneryConfig`, `PropConfig` and `CharacterConfig` add no
fields; dispatch is on `type` alone.) -/
structure AssetConfig where
  name : String
  type : String
  size : ℕ × ℕ
  palette : List String
  noise_seed : Option ℤ := none
  anchor : ℚ × ℚ := (1/2, 1/2)
  variants : ℕ := 1

/-- Step 2 of `generate_pixel_grid` (source lines 267-271): for an npc
variant (`variant_idx > 0`), rotate every palette color by
`30° × variant_idx`; otherwise use the configured palette unchanged.
`none` models a `ValueError` from an unparseable palette color. -/
def effPalette (config : AssetConfig) (variant_idx : ℕ) :
    Option (List String) :=
  if 0 < variant_idx ∧ config.type = "npc" then
    config.palette.mapM (fun color => rotate_hue color (30 * variant_idx))
  else some config.palette

/-- The tile seed derivation (source lines 276-279):
`hash(config.name) % 1000` when `noise_seed` is absent, else `noise_seed`.
CPython's built-in `hash` on strings is salted per process
(`PYTHONHASHSEED`), so it is modeled as the parameter `pyhash`; an
explicit `noise_seed` bypasses it. -/
def derive_seed (pyhash : String → ℤ) (config : AssetConfig) : ℤ :=
  match config.noise_seed with
  | none => pyhash config.name % 1000
  | some s => s

/-- Grayscale conversion of `detect_edges` (source line 189):
`0.299 R + 0.587 G + 0.114 B`. -/
def grayAt (px : ℕ → ℕ → Rgba) (y x : ℕ) : ℚ :=
  0.299 * (px y x).r + 0.587 * (px y x).g + 0.114 * (px y x).b

/-- The edge-replicating pad of `detect_edges` (source line 196,
`np.pad(gray, 1, mode='edge')`), read at signed offsets: out-of-range
indices clamp to the nearest cell. -/
def grayPadded (w h : ℕ) (px : ℕ → ℕ → Rgba) (y x : ℤ) : ℚ :=
  grayAt px (min (max y 0) ((h : ℤ) - 1)).toNat (min (max x 0) ((w : ℤ) - 1)).toNat

/-- Horizontal Sobel response at `(y, x)`: the 3×3 convolution with
`[[-1,0,1],[-2,0,2],[-1,0,1]]` over the padded grayscale (source lines
192-204). -/
def sobelGx (w h : ℕ) (px : ℕ → ℕ → Rgba) (y x : ℕ) : ℚ :=
  let g := grayPadded w h px
  g ((y : ℤ) - 1) ((x : ℤ) + 1) - g ((y : ℤ) - 1) ((x : ℤ) - 1)
    + 2 * g (y : ℤ) ((x : ℤ) + 1) - 2 * g (y : ℤ) ((x : ℤ) - 1)
    + g ((y : ℤ) + 1) ((x : ℤ) + 1) - g ((y : ℤ) + 1) ((x : ℤ) - 1)

/-- Vertical Sobel response at `(y, x)`: the 3×3 convolution with
`[[-1,-2,-1],[0,0,0],[1,2,1]]` over the padded grayscale (source lines
193-205). -/
def sobelGy (w h : ℕ) (px : ℕ → ℕ → Rgba) (y x : ℕ) : ℚ :=
  let g := grayPadded w h px
  g ((y : ℤ) + 1) ((x : ℤ) - 1) + 2 * g ((y : ℤ) + 1) (x : ℤ)
    + g ((y : ℤ) + 1) ((x : ℤ) + 1) - g ((y : ℤ) - 1) ((x : ℤ) - 1)
    - 2 * g ((y : ℤ) - 1) (x : ℤ) - g ((y : ℤ) - 1) ((x : ℤ) + 1)

/-- The outline mask `detect_edges(grid) > 50` (source lines 207-208 and
325-326): the magnitude `sqrt(Gx² + Gy²)` is clipped to `[0, 255]` and
truncated to `uint8`, and the mask keeps values `> 50`; for the truncated
clipped magnitude this holds exactly when `Gx² + Gy² ≥ 51² = 2601`,
which avoids the irrational square root. -/
def edgeOver50 (w h : ℕ) (px : ℕ → ℕ → Rgba) (y x : ℕ) : Bool :=
  decide (2601 ≤ (sobelGx w h px y x) ^ 2 + (sobelGy w h px y x) ^ 2)

/-- `generate_pixel_grid` (source lines 260-334) as a per-pixel function.
`pyhash` is CPython's salted string hash and `noise2` is the external
`OpenSimplex(seed).noise2` sampler, both modeled as parameters (the
former is process-salted, the latter lives outside this repository).
For tiles the source parses `palette[idx]` per sampled pixel; the model
parses the whole palette once, which agrees whenever every entry parses
(the situation of every theorem below). An empty tile palette raises
`IndexError` at the first pixel (= `none`). -/
def generate_pixel_grid (pyhash : String → ℤ) (noise2 : ℤ → ℚ → ℚ → ℚ)
    (config : AssetConfig) (variant_idx : ℕ) : Option (ℕ → ℕ → Rgba) := do
  let w := config.size.1
  let h := config.size.2
  let pal ← effPalette config variant_idx
  if config.type = "tile" then do
    if pal.length = 0 then none
    else do
      let seed := derive_seed pyhash config
      let rgbaPal ← pal.mapM hex_to_rgba
      pure (fun y x =>
        let n := noise2 seed ((x : ℚ) / w * 10) ((y : ℚ) / h * 10)
        let idx : ℤ := pyIntQ ((n + 1) / 2 * pal.length)
        rgbaPal.getD (min (max idx 0) ((pal.length : ℤ) - 1)).toNat ⟨0, 0, 0, 0⟩)
  else do
    let c0 ← pal.head?
    let base ← hex_to_rgba c0
    let basePix : Rgba := ⟨base.r, base.g, base.b,
      if base.a < 255 then base.a else 255⟩
    let filled ←
      if 8 ≤ w ∧ 8 ≤ h then
        if config.type = "npc" then do
          let bodyHex ← if 1 < pal.length then pal.get? 1 else rotate_hue c0 30
          let body ← hex_to_rgba bodyHex
          pure (fun y x =>
            if 2 ≤ x ∧ x + 2 < w ∧ 2 ≤ y ∧ y + 2 < h ∧
                (y : ℚ) < (h : ℚ) * 0.7 then
              body
            else basePix)
        else if 1 < pal.length then do
          let det ← (pal.get? 1).bind hex_to_rgba
          pure (fun y x =>
            if 2 ≤ x ∧ x + 2 < w ∧ 2 ≤ y ∧ y + 2 < h then det else basePix)
        else pure (fun _ _ => basePix)
      else pure (fun _ _ => basePix)
    if config.type = "prop" ∨ config.type = "furniture" ∨
        config.type = "clutter" then
      pure (fun y x =>
        if edgeOver50 w h filled y x then ⟨0, 0, 0, 255⟩ else filled y x)
    else pure filled

/-!
Spec-side and proof-side definitions. Everything above is translated from
the source; the definitions below state properties (or the spec's / the
claims' own formulas, clearly marked) to compare against it.
-/

/-- A placeholder for the process hash salt parameter in closed concrete
statements about non-tile assets, whose grids never consult it. -/
def dummyHash : String → ℤ := fun _ => 0

/-- A placeholder for the external noise sampler in closed concrete
statements about non-tile assets, whose grids never consult it. -/
def dummyNoise : ℤ → ℚ → ℚ → ℚ := fun _ _ _ => 0

/-- A lowercase hexadecimal digit character. -/
def isLHexDigit (c : Char) : Prop :=
  c ∈ ['a', 'b', 'c', 'd', 'e', 'f', '0', '1', '2', '3', '4', '5', '6', '7', '8', '9']

instance (c : Char) : Decidable (isLHexDigit c) := by
  unfold isLHexDigit; infer_instance

/-- The numeric value of a (lowercase) hex digit. -/
def lhexVal (c : Char) : ℕ :=
  (hexDigitVal c).getD 0

/-- The lightness of a hex color, by the source's own RGB-to-HSL formula
(the `l` computed inside `rotate_hue`). -/
def lightnessOfHex (s : String) : Option ℚ :=
  (hex_to_rgba s).map (fun c => (hslOfRgb c.r c.g c.b).2.2)

/-- The saturation of a hex color, by the source's own RGB-to-HSL formula
(the `s` computed inside `rotate_hue`). -/
def saturationOfHex (s : String) : Option ℚ :=
  (hex_to_rgba s).map (fun c => (hslOfRgb c.r c.g c.b).2.1)

/-- A power of two. -/
def IsPow2 (n : ℕ) : Prop :=
  ∃ k, n = 2 ^ k

/-- Two frame rectangles do not overlap: they are separated along one of
the two axes (degenerate, zero-area rectangles overlap nothing). -/
def NoOverlap (f g : Frame) : Prop :=
  f.x + f.w ≤ g.x ∨ g.x + g.w ≤ f.x ∨ f.y + f.h ≤ g.y ∨ g.y + g.h ≤ f.y

/-- Modelled from the amended claim C1: the initial atlas side is
`next_power_of_2` of `int(sqrt(total_area) * 1.2)` — the 1.2 inflation
applies to the side, after the square root. Exactly,
`⌊√A · 6/5⌋ = ⌊⌊√(36·A)⌋ / 5⌋`, which this computable form uses. -/
def specInitialSide (total_area : ℕ) : ℕ :=
  next_power_of_2 ((Nat.sqrt (36 * total_area) / 5 : ℕ) : ℚ)

/-- Modelled from claim C1 as written: the area is inflated by 1.2
before the square root, `nextPow2(sqrt(1.2 × Σ w·h))` (with the same
`int()` truncation the code's `next_power_of_2` applies). -/
noncomputable def claimInitialSide (total_area : ℕ) : ℕ :=
  next_power_of_2 ((pyIntR (Real.sqrt (1.2 * total_area)) : ℤ) : ℚ)

/-- Computable value of `claimInitialSide`:
`⌊√(6A/5)⌋ = ⌊√(30·A)/5⌋ = ⌊⌊√(30·A)⌋/5⌋`. -/
def claimInitialSideNat (total_area : ℕ) : ℕ :=
  next_power_of_2 ((Nat.sqrt (30 * total_area) / 5 : ℕ) : ℚ)

/-- Modelled from claim C5: rule 1 holds — both size dimensions are
divisible by 4. -/
def sizeRuleOK (a : RawAsset) : Prop :=
  a.size.1 % 4 = 0 ∧ a.size.2 % 4 = 0

/-- Modelled from claim C5: rule 2 holds — `max(width, height) ≤ 128`. -/
def dimRuleOK (a : RawAsset) : Prop :=
  max a.size.1 a.size.2 ≤ 128

instance (a : RawAsset) : Decidable (sizeRuleOK a) :=
  inferInstanceAs (Decidable (a.size.1 % 4 = 0 ∧ a.size.2 % 4 = 0))

instance (a : RawAsset) : Decidable (dimRuleOK a) :=
  inferInstanceAs (Decidable (max a.size.1 a.size.2 ≤ 128))

/-- Modelled from claim C5: the kind thresholds — tile 1.5, npc 2.0,
all others 1.8. -/
noncomputable def specMinContrast (ty : String) : ℝ :=
  if ty = "tile" then 1.5 else if ty = "npc" then 2.0 else 1.8

/-- Modelled from claim C5: a palette pair whose contrast ratio is below
the kind threshold. -/
noncomputable def pairBelowMin (ty : String) (p : String × String) : Prop :=
  ∃ r, checkContrast p.1 p.2 = some r ∧ r < specMinContrast ty

open Classical in
/-- Modelled from claim C5: the number of rule violations of one asset —
rule 1 once, rule 2 once, and (for palettes of length > 1 only) one per
consecutive low-contrast pair; non-adjacent pairs are never counted. -/
noncomputable def specViolationCount (a : RawAsset) : ℕ :=
  (if sizeRuleOK a then 0 else 1) + (if dimRuleOK a then 0 else 1) +
    (if 1 < a.palette.length then
      ((adjPairs a.palette).map
        (fun p => if pairBelowMin a.type p then 1 else 0)).sum
     else 0)

/-- Every palette color of every asset parses (the situation in which
`validate_config` is exercised; an unparseable color is a malformed
document, not a business-rule violation). -/
def wellFormedAssets (assets : List RawAsset) : Prop :=
  ∀ a ∈ assets, ∀ c ∈ a.palette, (hex_to_rgba c).isSome

/-- The per-asset error list inside `validate_config` (its inner lambda,
named so the fold can be reasoned about one asset at a time). -/
noncomputable def assetErrs (a : RawAsset) : Option (List VError) :=
  let e1 := if a.size.1 % 4 ≠ 0 ∨ a.size.2 % 4 ≠ 0 then
      [VError.sizeDiv4 a.name a.size.1 a.size.2] else []
  let e2 := if 128 < max a.size.1 a.size.2 then
      [VError.maxDim a.name (max a.size.1 a.size.2)] else []
  (if 1 < a.palette.length then contrastErrs a.name a.type a.palette
   else pure []).map (fun e3 => e1 ++ e2 ++ e3)

/-- A tile whose width 30 is not divisible by 4: exactly one violation. -/
def va1 : RawAsset :=
  { name := "bad_tile", type := "tile", size := (30, 32), palette := ["#000000"] }

/-- A prop whose width 200 exceeds the 128 cap: exactly one violation. -/
def va2 : RawAsset :=
  { name := "big_prop", type := "prop", size := (200, 64), palette := ["#ffffff"] }

/-- An 8×8 npc with a single opaque 6-digit base color. -/
def npcRed8 : AssetConfig :=
  { name := "npc_red", type := "npc", size := (8, 8), palette := ["#ff0000"] }

/-- An 8×8 npc whose single palette color is 8-digit with partial alpha
(`44`), with variants configured. -/
def npcGlass8 : AssetConfig :=
  { name := "npc_glass", type := "npc", size := (8, 8),
    palette := ["#11223344"], variants := 2 }

/-- A tile asset with no explicit `noise_seed`: its seed comes from the
runtime's salted string hash. -/
def parkTile : AssetConfig :=
  { name := "park_ground", type := "tile", size := (64, 64),
    palette := ["#1a5c1a"] }

/-- The same tile with an explicit `noise_seed`, which bypasses the
runtime hash. -/
def parkTileSeeded : AssetConfig :=
  { name := "park_ground", type := "tile", size := (64, 64),
    palette := ["#1a5c1a"], noise_seed := some 42 }

/-- Two 1×1 sprites: the smallest sprite set on which the packer's single
non-iterated growth step misplaces a frame. -/
def twoUnitSprites : List Sprite :=
  [("a", 1, 1), ("b", 1, 1)]

/-- Six 17×7 sprites: each row of the initial 32×32 atlas holds one, so
the fifth placement triggers a growth event from side 32. -/
def growthSprites : List Sprite :=
  [("s0", 17, 7), ("s1", 17, 7), ("s2", 17, 7),
   ("s3", 17, 7), ("s4", 17, 7), ("s5", 17, 7)]

/-- Two 4×4 sprites: a set the initial 8×8 atlas holds comfortably. -/
def smallSprites : List Sprite :=
  [("a", 4, 4), ("b", 4, 4)]

/-- One 3×67 sprite, total area 201: a set on which
`nextPow2(int(sqrt(A)*1.2))` and `nextPow2(int(sqrt(1.2*A)))` differ. -/
def thinSprite : List Sprite :=
  [("a", 3, 67)]

/-- Sprites of heights 32, 16, 16 in that insertion order. -/
def heightsSprites : List Sprite :=
  [("a", 32, 32), ("b", 16, 16), ("c", 16, 16)]

/-- Walk invariant for C6: the atlas side is a power of two, and every
recorded growth event went from a power of two to a power of two,
strictly increasing whenever the old side was at least 2. -/
def Pow2Inv (st : PackState) : Prop :=
  IsPow2 st.size ∧
    ∀ p ∈ st.growths, IsPow2 p.1 ∧ IsPow2 p.2 ∧ (2 ≤ p.1 → p.1 < p.2)

/-- Walk invariant for C4's non-overlap: recorded frames are pairwise
disjoint, end at or above the current row's lower edge, frames of the
current row end at or left of the cursor (or are empty), and every frame
either ends above the current row or sits in it. -/
def DisjInv (st : PackState) : Prop :=
  st.frames.Pairwise NoOverlap ∧
    (∀ f ∈ st.frames, f.y + f.h ≤ st.y + st.rowH) ∧
    (∀ f ∈ st.frames, f.y = st.y → f.x + f.w ≤ st.x ∨ f.h = 0) ∧
    (∀ f ∈ st.frames, f.y + f.h ≤ st.y ∨ f.y = st.y)

/-- Walk invariant for C4's containment, relative to the initial side
`S`: the side never shrinks below `S`, stays a power of two, bounds the
current row, and bounds every recorded frame. -/
def BoundInv (S : ℕ) (st : PackState) : Prop :=
  S ≤ st.size ∧ IsPow2 st.size ∧ st.y + st.rowH ≤ st.size ∧
    ∀ f ∈ st.frames, f.x + f.w ≤ st.size ∧ f.y + f.h ≤ st.size

/-!
Lemmas and theorems.
-/

lemma pyIntQ_natCast (n : ℕ) : pyIntQ (n : ℚ) = n := by
  simp [pyIntQ]

set_option maxHeartbeats 1000000 in
lemma hexDigitVal_toHexDigit {v : ℕ} (h : v < 16) :
    hexDigitVal (toHexDigit v) = some v := by
  interval_cases v <;> decide

set_option maxHeartbeats 1000000 in
lemma toHexDigit_ne_hash {v : ℕ} (h : v < 16) : toHexDigit v ≠ '#' := by
  interval_cases v <;> decide

lemma parseHexByte_byte (n : ℕ) :
    parseHexByte (toHexDigit (n / 16 % 16)) (toHexDigit (n % 16)) =
      some (n % 256) := by
  simp only [parseHexByte,
    hexDigitVal_toHexDigit (Nat.mod_lt _ (by norm_num) : n / 16 % 16 < 16),
    hexDigitVal_toHexDigit (Nat.mod_lt _ (by norm_num) : n % 16 < 16),
    Option.bind_eq_bind', Option.some_bind]
  rw [show 16 * (n / 16 % 16) + n % 16 = n % 256 from by omega]
  rfl

/-- Parsing an emitted `#rrggbb` recovers the channels mod 256 (every
call site passes channels at most 255) and full opacity. -/
lemma parse_rgb_to_hex (r g b : ℕ) :
    hex_to_rgba (rgb_to_hex r g b) =
      some ⟨r % 256, g % 256, b % 256, 255⟩ := by
  show hexCharsToRgba (('#' :: (byteToHex r ++ byteToHex g ++ byteToHex b)).dropWhile
    (fun c => c = '#')) = _
  rw [List.dropWhile_cons_of_pos (by simp)]
  rw [show byteToHex r ++ byteToHex g ++ byteToHex b =
    toHexDigit (r / 16 % 16) :: toHexDigit (r % 16) :: toHexDigit (g / 16 % 16) ::
      toHexDigit (g % 16) :: toHexDigit (b / 16 % 16) :: [toHexDigit (b % 16)]
    from by simp [byteToHex]]
  rw [List.dropWhile_cons_of_neg
    (by simp [toHexDigit_ne_hash (Nat.mod_lt _ (by norm_num) : r / 16 % 16 < 16)])]
  simp only [hexCharsToRgba, parseHexByte_byte, Option.bind_eq_bind',
    Option.some_bind]
  rfl

lemma parse_rgb_to_hex_of_le {r g b : ℕ} (hr : r ≤ 255) (hg : g ≤ 255)
    (hb : b ≤ 255) :
    hex_to_rgba (rgb_to_hex r g b) = some ⟨r, g, b, 255⟩ := by
  rw [parse_rgb_to_hex, Nat.mod_eq_of_lt (by omega), Nat.mod_eq_of_lt (by omega),
    Nat.mod_eq_of_lt (by omega)]

set_option maxHeartbeats 1600000 in
lemma lhexVal_spec {c : Char} (h : isLHexDigit c) :
    hexDigitVal c = some (lhexVal c) ∧ lhexVal c < 16 ∧
      toHexDigit (lhexVal c) = c ∧ c ≠ '#' := by
  unfold isLHexDigit at h
  fin_cases h <;> exact ⟨rfl, by decide, rfl, by decide⟩

/-- C9 (amended): the round-trip holds for `#` followed by six lowercase
hex digits. -/
theorem hex_roundtrip_lowercase (c1 c2 c3 c4 c5 c6 : Char)
    (h1 : isLHexDigit c1) (h2 : isLHexDigit c2) (h3 : isLHexDigit c3)
    (h4 : isLHexDigit c4) (h5 : isLHexDigit c5) (h6 : isLHexDigit c6) :
    (hex_to_rgba (String.mk ['#', c1, c2, c3, c4, c5, c6])).map
        (fun c => rgb_to_hex c.r c.g c.b) =
      some (String.mk ['#', c1, c2, c3, c4, c5, c6]) := by
  obtain ⟨hv1, hlt1, hd1, hne1⟩ := lhexVal_spec h1
  obtain ⟨hv2, hlt2, hd2, hne2⟩ := lhexVal_spec h2
  obtain ⟨hv3, hlt3, hd3, hne3⟩ := lhexVal_spec h3
  obtain ⟨hv4, hlt4, hd4, hne4⟩ := lhexVal_spec h4
  obtain ⟨hv5, hlt5, hd5, hne5⟩ := lhexVal_spec h5
  obtain ⟨hv6, hlt6, hd6, hne6⟩ := lhexVal_spec h6
  have hparse : hex_to_rgba (String.mk ['#', c1, c2, c3, c4, c5, c6]) =
      some ⟨16 * lhexVal c1 + lhexVal c2, 16 * lhexVal c3 + lhexVal c4,
            16 * lhexVal c5 + lhexVal c6, 255⟩ := by
    show hexCharsToRgba (['#', c1, c2, c3, c4, c5, c6].dropWhile
      (fun c => c = '#')) = _
    rw [List.dropWhile_cons_of_pos (by simp),
        List.dropWhile_cons_of_neg (by simp [hne1])]
    simp only [hexCharsToRgba, parseHexByte, hv1, hv2, hv3, hv4, hv5, hv6,
      Option.bind_eq_bind', Option.some_bind]
    rfl
  rw [hparse, Option.map_some']
  have hbyte : ∀ a b : Char, isLHexDigit a → isLHexDigit b →
      byteToHex (16 * lhexVal a + lhexVal b) = [a, b] := by
    intro a b ha hb
    obtain ⟨_, hlta, hda, _⟩ := lhexVal_spec ha
    obtain ⟨_, hltb, hdb, _⟩ := lhexVal_spec hb
    rw [byteToHex,
      show (16 * lhexVal a + lhexVal b) / 16 % 16 = lhexVal a from by omega,
      show (16 * lhexVal a + lhexVal b) % 16 = lhexVal b from by omega,
      hda, hdb]
  rw [rgb_to_hex, hbyte c1 c2 h1 h2, hbyte c3 c4 h3 h4, hbyte c5 c6 h5 h6]
  rfl

/-- C9 witness: the round-trip at the lowercase color `#1a5c1a`. -/
theorem hex_roundtrip_lowercase_witness :
    isLHexDigit '1' ∧ isLHexDigit 'a' ∧
      (hex_to_rgba "#1a5c1a").map (fun c => rgb_to_hex c.r c.g c.b) =
        some "#1a5c1a" :=
  ⟨by decide, by decide,
    hex_roundtrip_lowercase '1' 'a' '5' 'c' '1' 'a'
      (by decide) (by decide) (by decide) (by decide) (by decide) (by decide)⟩

/-- C9 counterexample: an uppercase 6-digit hex color is re-emitted in
lowercase, so the round-trip is not the identity on it. -/
theorem hex_roundtrip_uppercase_fails :
    (hex_to_rgba "#AABBCC").map (fun c => rgb_to_hex c.r c.g c.b) =
        some "#aabbcc" ∧ ("#aabbcc" : String) ≠ "#AABBCC" := by
  constructor
  · decide
  · decide

lemma hslOfRgb_self (v : ℕ) : hslOfRgb v v v = (0, 0, (v : ℚ) / 255) := by
  unfold hslOfRgb
  simp [max_self, min_self, sub_self, zero_div, ite_self, add_self_div_two,
    Prod.mk.injEq]

lemma hsl_to_rgb_sat_zero (hq : ℚ) (v : ℕ) :
    hsl_to_rgb hq 0 ((v : ℚ) / 255) = (v, v, v) := by
  unfold hsl_to_rgb
  rw [if_pos rfl]
  simp only [div_mul_cancel₀ _ (by norm_num : (255:ℚ) ≠ 0), pyIntQ_natCast,
    Int.toNat_natCast]

/-- C7 (amended): `rotate_hue` passes saturation and lightness through
unchanged into the inverse conversion, so a color the conversion maps
onto itself — any achromatic color, whose saturation is 0 — is returned
bit-exactly for every rotation angle; for chromatic colors the 8-bit
truncation can shift saturation and lightness (see the counterexample). -/
theorem rotate_hue_achromatic (v : ℕ) (d : ℚ) (hv : v ≤ 255) :
    rotate_hue (rgb_to_hex v v v) d = some (rgb_to_hex v v v) := by
  rw [rotate_hue, parse_rgb_to_hex_of_le hv hv hv]
  simp only [Option.bind_eq_bind', Option.some_bind]
  rw [hslOfRgb_self]
  simp only [hsl_to_rgb_sat_zero]
  rfl

/-- C7 witness: rotating the grey `#808080` by 77° returns it exactly. -/
theorem rotate_hue_achromatic_witness :
    (128 : ℕ) ≤ 255 ∧ rotate_hue "#808080" 77 = some "#808080" := by
  refine ⟨by norm_num, ?_⟩
  rw [show ("#808080" : String) = rgb_to_hex 128 128 128 from by decide]
  exact rotate_hue_achromatic 128 77 (by norm_num)

lemma hsl123456 : hslOfRgb 18 52 86 = (210, 34/43, 52/255) := by
  norm_num [hslOfRgb, qmod, max_def, min_def, Prod.mk.injEq]

lemma hsl0a0a5d : hslOfRgb 10 10 93 = (240, 83/93, 103/510) := by
  norm_num [hslOfRgb, qmod, max_def, min_def, Prod.mk.injEq]

lemma qmod_rot30 : qmod (210 + 30) 360 = 240 := by
  norm_num [qmod]

lemma hsl_to_rgb_rot30 : hsl_to_rgb (240/360) (34/43) (52/255) = (10, 10, 93) := by
  norm_num [hsl_to_rgb, hue_to_rgb, pyIntQ, Prod.mk.injEq]
  decide

lemma rotate_hue_123456 : rotate_hue "#123456" 30 = some "#0a0a5d" := by
  rw [rotate_hue, show hex_to_rgba "#123456" = some ⟨18, 52, 86, 255⟩ from by decide]
  simp only [Option.bind_eq_bind', Option.some_bind]
  rw [hsl123456]
  simp only [qmod_rot30, hsl_to_rgb_rot30]
  decide

/-- C7 counterexample: rotating `#123456` by 30° changes the color's
lightness (by the source's own RGB-to-HSL formula) from `52/255 = 104/510`
to `103/510` — saturation and lightness are not preserved exactly. -/
theorem rotate_hue_not_exact_counterexample :
    (rotate_hue "#123456" 30).bind lightnessOfHex = some (103/510) ∧
      lightnessOfHex "#123456" = some (52/255) ∧ (103/510 : ℚ) ≠ 52/255 := by
  refine ⟨?_, ?_, by norm_num⟩
  · rw [rotate_hue_123456, Option.some_bind, lightnessOfHex,
      show hex_to_rgba "#0a0a5d" = some ⟨10, 10, 93, 255⟩ from by decide,
      Option.map_some', hsl0a0a5d]
  · rw [lightnessOfHex,
      show hex_to_rgba "#123456" = some ⟨18, 52, 86, 255⟩ from by decide,
      Option.map_some', hsl123456]

lemma natSqrt_eq {m k : ℕ} (h1 : k * k ≤ m) (h2 : m < (k + 1) * (k + 1)) :
    Nat.sqrt m = k :=
  (Nat.eq_sqrt.mpr ⟨h1, h2⟩).symm

lemma natSize_eq {m k : ℕ} (h1 : 2 ^ k ≤ m) (h2 : m < 2 ^ (k + 1)) :
    Nat.size m = k + 1 :=
  le_antisymm (Nat.size_le.mpr h2) (Nat.lt_size.mpr h1)

lemma np2_natCast {n : ℕ} (hn : 1 ≤ n) :
    next_power_of_2 (n : ℚ) = 2 ^ Nat.size (n - 1) := by
  rw [next_power_of_2, pyIntQ_natCast, pyBitLength,
    show ((n : ℤ) - 1).natAbs = n - 1 from by omega, Nat.shiftLeft_eq, one_mul]

/-- `int(math.sqrt(A) * 1.2)` over exact reals equals
`⌊√(36·A)⌋ / 5 = Nat.sqrt (36·A) / 5`. -/
lemma pyIntR_sqrt_side (A : ℕ) :
    pyIntR (Real.sqrt A * 1.2) = ((Nat.sqrt (36 * A) / 5 : ℕ) : ℤ) := by
  have h0 : (0:ℝ) ≤ Real.sqrt A * 1.2 := by positivity
  rw [pyIntR, if_pos h0]
  have h1 : Real.sqrt (A : ℝ) * 1.2 =
      Real.sqrt ((36 * A : ℕ) : ℝ) / ((5 : ℕ) : ℝ) := by
    rw [show ((36 * A : ℕ) : ℝ) = 6 ^ 2 * (A : ℝ) from by push_cast; ring,
      Real.sqrt_mul (by positivity), Real.sqrt_sq (by norm_num)]
    norm_num
    ring
  rw [h1, ← Int.natCast_floor_eq_floor (by positivity),
    Nat.floor_div_nat, Real.nat_floor_real_sqrt_eq_nat_sqrt]

/-- `int(math.sqrt(1.2 * A))` over exact reals equals
`⌊√(30·A)⌋ / 5 = Nat.sqrt (30·A) / 5`. -/
lemma pyIntR_sqrt_area (A : ℕ) :
    pyIntR (Real.sqrt (1.2 * A)) = ((Nat.sqrt (30 * A) / 5 : ℕ) : ℤ) := by
  have h0 : (0:ℝ) ≤ Real.sqrt (1.2 * A) := Real.sqrt_nonneg _
  rw [pyIntR, if_pos h0]
  have h1 : Real.sqrt (1.2 * (A : ℝ)) =
      Real.sqrt ((30 * A : ℕ) : ℝ) / ((5 : ℕ) : ℝ) := by
    rw [show (1.2 * (A : ℝ)) = ((30 * A : ℕ) : ℝ) * (1/5 : ℝ) ^ 2 from by
        push_cast; ring,
      Real.sqrt_mul (by positivity), Real.sqrt_sq (by norm_num)]
    norm_num
    ring
  rw [h1, ← Int.natCast_floor_eq_floor (by positivity),
    Nat.floor_div_nat, Real.nat_floor_real_sqrt_eq_nat_sqrt]

lemma atlas_size_init_eq (A : ℕ) : atlas_size_init A = specInitialSide A := by
  rw [atlas_size_init, specInitialSide, pyIntR_sqrt_side]
  norm_cast

lemma claimInitialSide_eq (A : ℕ) :
    claimInitialSide A = claimInitialSideNat A := by
  rw [claimInitialSide, claimInitialSideNat, pyIntR_sqrt_area]
  norm_cast

lemma specInitialSide_201 : specInitialSide 201 = 32 := by
  rw [specInitialSide, show (36 * 201 : ℕ) = 7236 from by norm_num,
    natSqrt_eq (m := 7236) (k := 85) (by norm_num) (by norm_num),
    show (85 / 5 : ℕ) = 17 from by norm_num,
    np2_natCast (by norm_num), show (17 - 1 : ℕ) = 16 from by norm_num,
    natSize_eq (k := 4) (by norm_num) (by norm_num)]
  norm_num

lemma claimInitialSideNat_201 : claimInitialSideNat 201 = 16 := by
  rw [claimInitialSideNat, show (30 * 201 : ℕ) = 6030 from by norm_num,
    natSqrt_eq (m := 6030) (k := 77) (by norm_num) (by norm_num),
    show (77 / 5 : ℕ) = 15 from by norm_num,
    np2_natCast (by norm_num), show (15 - 1 : ℕ) = 14 from by norm_num,
    natSize_eq (k := 3) (by norm_num) (by norm_num)]
  norm_num

/-- C1 (amended): for every non-empty sprite set, the initial atlas side
computed by `pack_sprites` is `nextPow2(int(sqrt(Σ w·h) * 1.2))` — the
1.2 inflation multiplies the square root (the side), not the area —
and the placement walk starts from exactly that side. -/
theorem initial_side_amended (sprites : List Sprite) (h : sprites ≠ []) :
    atlas_size_init (totalArea sprites) = specInitialSide (totalArea sprites) ∧
      pack_sprites sprites =
        packFrom (specInitialSide (totalArea sprites)) (sortDesc sprites) := by
  refine ⟨atlas_size_init_eq _, ?_⟩
  rw [pack_sprites, atlas_size_init_eq]

/-- C1 witness: the amended formula at the one-sprite set of area 201. -/
theorem initial_side_amended_witness :
    thinSprite ≠ [] ∧
      atlas_size_init (totalArea thinSprite) =
        specInitialSide (totalArea thinSprite) :=
  ⟨by decide, (initial_side_amended thinSprite (by decide)).1⟩

/-- C1 counterexample: on the sprite set of total area 201 (one 3×67
sprite) the code computes initial side 32, while the claim's formula
`nextPow2(sqrt(1.2 × Σ w·h))` gives 16. -/
theorem initial_side_claim_counterexample :
    atlas_size_init (totalArea thinSprite) = 32 ∧
      claimInitialSide (totalArea thinSprite) = 16 ∧ (32 : ℕ) ≠ 16 := by
  have ht : totalArea thinSprite = 201 := by decide
  exact ⟨by rw [ht, atlas_size_init_eq, specInitialSide_201],
    by rw [ht, claimInitialSide_eq, claimInitialSideNat_201], by norm_num⟩

lemma np2_isPow2 (q : ℚ) : IsPow2 (next_power_of_2 q) :=
  ⟨pyBitLength (pyIntQ q - 1), by rw [next_power_of_2, Nat.shiftLeft_eq, one_mul]⟩

lemma growAtlas_one : growAtlas 1 = 1 := by
  rw [growAtlas, show ((1:ℕ):ℚ) * 1.5 = 3/2 from by norm_num, next_power_of_2,
    show pyIntQ (3/2) = 1 from by norm_num [pyIntQ], pyBitLength]
  norm_num [Nat.size_zero, Nat.shiftLeft_eq]

/-- A power-of-two atlas side of at least 2 doubles on growth:
`int(2^k * 1.5) = 3·2^(k-1)` and the next power of two above it
is `2^(k+1)`. -/
lemma growAtlas_two_pow {k : ℕ} (hk : 1 ≤ k) :
    growAtlas (2 ^ k) = 2 ^ (k + 1) := by
  obtain ⟨j, rfl⟩ : ∃ j, k = j + 1 := ⟨k - 1, by omega⟩
  have hj : 1 ≤ 2 ^ j := Nat.one_le_two_pow
  rw [growAtlas,
    show ((2 ^ (j+1) : ℕ) : ℚ) * 1.5 = ((3 * 2 ^ j : ℕ) : ℚ) from by
      push_cast; ring,
    next_power_of_2, pyIntQ_natCast, pyBitLength,
    show ((3 * 2 ^ j : ℕ) : ℤ) - 1 = ((3 * 2 ^ j - 1 : ℕ) : ℤ) from by omega,
    Int.natAbs_ofNat,
    natSize_eq (m := 3 * 2 ^ j - 1) (k := j + 1)
      (by rw [pow_succ]; omega)
      (by rw [pow_succ, pow_succ]; omega),
    Nat.shiftLeft_eq, one_mul]

lemma growAtlas_spec {n : ℕ} (h : IsPow2 n) :
    IsPow2 (growAtlas n) ∧ (2 ≤ n → n < growAtlas n) := by
  obtain ⟨k, rfl⟩ := h
  cases k with
  | zero =>
      refine ⟨⟨0, ?_⟩, fun h2 => absurd h2 (by norm_num)⟩
      simpa using growAtlas_one
  | succ j =>
      rw [growAtlas_two_pow (by omega)]
      exact ⟨⟨j + 2, rfl⟩, fun _ => Nat.pow_lt_pow_right (by norm_num) (by omega)⟩

lemma packFrom_induction {P : PackState → Prop}
    (step : ∀ st s, P st → P (packStep st s)) :
    ∀ (l : List Sprite) (st : PackState), P st → P (l.foldl packStep st) := by
  intro l
  induction l with
  | nil => exact fun _ h => h
  | cons s l ih => exact fun st h => ih _ (step st s h)

lemma packStep_pow2 (st : PackState) (s : Sprite) (h : Pow2Inv st) :
    Pow2Inv (packStep st s) := by
  obtain ⟨hsz, hg⟩ := h
  have hgrow := growAtlas_spec hsz
  simp only [packStep]
  split_ifs with h1 h2 h3
  · refine ⟨hgrow.1, fun p hp => ?_⟩
    rcases List.mem_append.mp hp with hp | hp
    · exact hg p hp
    · rw [List.mem_singleton] at hp; subst hp
      exact ⟨hsz, hgrow.1, hgrow.2⟩
  · exact ⟨hsz, hg⟩
  · refine ⟨hgrow.1, fun p hp => ?_⟩
    rcases List.mem_append.mp hp with hp | hp
    · exact hg p hp
    · rw [List.mem_singleton] at hp; subst hp
      exact ⟨hsz, hgrow.1, hgrow.2⟩
  · exact ⟨hsz, hg⟩

/-- C6 (amended): the atlas side is a power of two at every point of
packing — the initial side is a power of two, the final side is a power
of two, and every recorded growth event produced a power of two, strictly
larger whenever the side it grew from was at least 2 (a degenerate side
of 1 "grows" to 1 again, since `int(1 * 1.5) = 1`). -/
theorem atlas_side_pow2 (sprites : List Sprite) :
    IsPow2 (atlas_size_init (totalArea sprites)) ∧
      IsPow2 (pack_sprites sprites).size ∧
      ∀ og ng, (og, ng) ∈ (pack_sprites sprites).growths →
        IsPow2 ng ∧ (2 ≤ og → og < ng) := by
  have hinit : IsPow2 (atlas_size_init (totalArea sprites)) := by
    rw [atlas_size_init]; exact np2_isPow2 _
  have h : Pow2Inv (pack_sprites sprites) := by
    rw [pack_sprites, packFrom]
    exact packFrom_induction packStep_pow2 _ _ ⟨hinit, by simp⟩
  exact ⟨hinit, h.1, fun og ng hm => ⟨(h.2 (og, ng) hm).2.1, (h.2 (og, ng) hm).2.2⟩⟩

lemma np2_pow_eval {n k : ℕ} (h1 : 2 ^ k < n) (h2 : n ≤ 2 ^ (k + 1)) :
    next_power_of_2 (n : ℚ) = 2 ^ (k + 1) := by
  have hk : 1 ≤ 2 ^ k := Nat.one_le_two_pow
  rw [np2_natCast (by omega),
    natSize_eq (m := n - 1) (k := k) (by omega) (by omega)]

lemma np2_one : next_power_of_2 ((1 : ℕ) : ℚ) = 1 := by
  rw [np2_natCast le_rfl]
  norm_num [Nat.size_zero]

lemma atlas_init_twoUnit : atlas_size_init (totalArea twoUnitSprites) = 1 := by
  rw [show totalArea twoUnitSprites = 2 from by decide, atlas_size_init_eq,
    specInitialSide, show (36 * 2 : ℕ) = 72 from by norm_num,
    natSqrt_eq (m := 72) (k := 8) (by norm_num) (by norm_num),
    show (8 / 5 : ℕ) = 1 from by norm_num, np2_one]

lemma growAtlas_32 : growAtlas 32 = 64 := by
  rw [show (32 : ℕ) = 2 ^ 5 from by norm_num, growAtlas_two_pow (by norm_num)]
  norm_num

lemma packFrom_twoUnit : packFrom 1 (sortDesc twoUnitSprites) =
    ⟨1, 1, 1, 1, [⟨"a", 0, 0, 1, 1⟩, ⟨"b", 0, 1, 1, 1⟩], [(1, 1)]⟩ := by
  rw [show sortDesc twoUnitSprites = twoUnitSprites from by decide]
  simp [packFrom, twoUnitSprites, packStep, growAtlas_one, Sprite.w, Sprite.h]

lemma atlas_init_growth : atlas_size_init (totalArea growthSprites) = 32 := by
  rw [show totalArea growthSprites = 714 from by decide, atlas_size_init_eq,
    specInitialSide, show (36 * 714 : ℕ) = 25704 from by norm_num,
    natSqrt_eq (m := 25704) (k := 160) (by norm_num) (by norm_num),
    show (160 / 5 : ℕ) = 32 from by norm_num,
    np2_pow_eval (k := 4) (by norm_num) (by norm_num)]
  norm_num

lemma packFrom_growth :
    (packFrom 32 (sortDesc growthSprites)).growths = [(32, 64)] := by
  rw [show sortDesc growthSprites = growthSprites from by decide]
  simp [packFrom, growthSprites, packStep, growAtlas_32, Sprite.w, Sprite.h]

/-- C6 witness: on the six 17×7 sprites, a growth event from side 32 is
recorded, and the theorem yields that 64 is a power of two strictly
larger than 32. -/
theorem atlas_side_pow2_witness :
    (32, 64) ∈ (pack_sprites growthSprites).growths ∧ (2 : ℕ) ≤ 32 ∧
      IsPow2 64 ∧ 32 < 64 := by
  have hm : (32, 64) ∈ (pack_sprites growthSprites).growths := by
    rw [pack_sprites, atlas_init_growth, packFrom_growth]
    exact List.mem_singleton_self _
  have h := (atlas_side_pow2 growthSprites).2.2 32 64 hm
  exact ⟨hm, by norm_num, h.1, h.2 (by norm_num)⟩

/-- C6 counterexample: on two 1×1 sprites the initial side is 1, a
growth event is triggered, and the recorded growth is `(1, 1)` — the new
side is not strictly larger than the old. -/
theorem atlas_growth_not_strict_counterexample :
    (pack_sprites twoUnitSprites).growths = [(1, 1)] ∧ ¬ (1 < 1) := by
  rw [pack_sprites, atlas_init_twoUnit, packFrom_twoUnit]
  exact ⟨rfl, by norm_num⟩

lemma disj_size (st : PackState) (sz : ℕ) (gr : List (ℕ × ℕ)) (h : DisjInv st) :
    DisjInv { st with size := sz, growths := gr } := h

lemma disj_break (st : PackState) (h : DisjInv st) :
    DisjInv { st with x := 0, y := st.y + st.rowH, rowH := 0 } := by
  obtain ⟨hpw, hbelow, hrow, hstrata⟩ := h
  refine ⟨hpw, ?_, ?_, ?_⟩
  · intro f hf
    have := hbelow f hf
    simp only
    omega
  · intro f hf hfy
    simp only at hfy ⊢
    right
    have hb := hbelow f hf
    rcases hstrata f hf with hst | hst <;> omega
  · intro f hf
    have := hbelow f hf
    simp only
    left
    omega

lemma disj_record (st : PackState) (s : Sprite) (h : DisjInv st) :
    DisjInv { st with
      frames := st.frames ++ [⟨s.1, st.x, st.y, s.w, s.h⟩],
      x := st.x + s.w, rowH := max st.rowH s.h } := by
  obtain ⟨hpw, hbelow, hrow, hstrata⟩ := h
  refine ⟨?_, ?_, ?_, ?_⟩
  · rw [List.pairwise_append]
    refine ⟨hpw, List.pairwise_singleton _ _, ?_⟩
    intro f hf g hg
    rw [List.mem_singleton] at hg
    subst hg
    rcases hstrata f hf with hst | hst
    · right; right; left; exact hst
    · rcases hrow f hf hst with hx | hx
      · left; exact hx
      · right; right; left
        simp only
        omega
  · intro f hf
    simp only
    rcases List.mem_append.mp hf with hf | hf
    · have := hbelow f hf
      have := le_max_left st.rowH s.h
      omega
    · rw [List.mem_singleton] at hf
      subst hf
      simp only
      have := le_max_right st.rowH s.h
      omega
  · intro f hf hfy
    simp only at hfy ⊢
    rcases List.mem_append.mp hf with hf | hf
    · rcases hrow f hf hfy with hx | hx
      · left; omega
      · right; exact hx
    · rw [List.mem_singleton] at hf
      subst hf
      left
      simp only
      omega
  · intro f hf
    simp only
    rcases List.mem_append.mp hf with hf | hf
    · exact hstrata f hf
    · rw [List.mem_singleton] at hf
      subst hf
      right
      rfl

lemma packStep_disj (st : PackState) (s : Sprite) (h : DisjInv st) :
    DisjInv (packStep st s) := by
  rw [packStep]
  split_ifs with h1 h2 h3
  · exact disj_record _ s (disj_size _ _ _ (disj_break st h))
  · exact disj_record _ s (disj_break st h)
  · exact disj_record _ s (disj_size _ _ _ h)
  · exact disj_record _ s h

lemma isPow2_two_le {n : ℕ} (h : IsPow2 n) (h2 : 2 ≤ n) :
    growAtlas n = 2 * n := by
  obtain ⟨k, rfl⟩ := h
  have hk : 1 ≤ k := by
    by_contra hk
    push_neg at hk
    interval_cases k
    · omega
  rw [growAtlas_two_pow hk, pow_succ]
  ring

lemma packStep_bound {S : ℕ} (hS : 2 ≤ S) (st : PackState) (s : Sprite)
    (hw : s.w ≤ S) (hh : s.h ≤ S) (h : BoundInv S st) :
    BoundInv S (packStep st s) := by
  obtain ⟨hle, hpow, hcur, hin⟩ := h
  have hgrow : IsPow2 (2 * st.size) :=
    isPow2_two_le hpow (by omega) ▸ (growAtlas_spec hpow).1
  have hdouble : growAtlas st.size = 2 * st.size := isPow2_two_le hpow (by omega)
  simp only [packStep]
  split_ifs with h1 h2 h3
  · -- row break, growth
    dsimp only [BoundInv] at h2 ⊢
    rw [hdouble]
    refine ⟨by omega, hgrow, by omega, ?_⟩
    intro f hf
    rcases List.mem_append.mp hf with hf | hf
    · have := hin f hf
      omega
    · rw [List.mem_singleton] at hf
      subst hf
      dsimp only
      omega
  · -- row break, no growth
    dsimp only [BoundInv] at h2 ⊢
    push_neg at h2
    refine ⟨hle, hpow, by omega, ?_⟩
    intro f hf
    rcases List.mem_append.mp hf with hf | hf
    · exact hin f hf
    · rw [List.mem_singleton] at hf
      subst hf
      dsimp only
      omega
  · -- same row, growth
    dsimp only [BoundInv] at h3 ⊢
    push_neg at h1
    rw [hdouble]
    have hm1 := le_max_left st.rowH s.h
    have hm2 := le_max_right st.rowH s.h
    refine ⟨by omega, hgrow, by omega, ?_⟩
    intro f hf
    rcases List.mem_append.mp hf with hf | hf
    · have := hin f hf
      omega
    · rw [List.mem_singleton] at hf
      subst hf
      dsimp only
      omega
  · -- same row, no growth
    dsimp only [BoundInv] at h3 ⊢
    push_neg at h1 h3
    have hm1 := le_max_left st.rowH s.h
    have hm2 := le_max_right st.rowH s.h
    refine ⟨hle, hpow, by omega, ?_⟩
    intro f hf
    rcases List.mem_append.mp hf with hf | hf
    · exact hin f hf
    · rw [List.mem_singleton] at hf
      subst hf
      dsimp only
      omega

lemma packFrom_induction_mem {P : PackState → Prop} :
    ∀ (l : List Sprite), (∀ st s, s ∈ l → P st → P (packStep st s)) →
      ∀ st, P st → P (l.foldl packStep st) := by
  intro l
  induction l with
  | nil => exact fun _ st h => h
  | cons s t ih =>
      intro step st h
      exact ih (fun st' s' hs' hp => step st' s' (List.mem_cons_of_mem _ hs') hp)
        _ (step st s (List.mem_cons_self s t) h)

lemma mem_sortDesc {s : Sprite} {l : List Sprite} (h : s ∈ sortDesc l) :
    s ∈ l :=
  (List.perm_insertionSort byDescH l).mem_iff.mp h

/-- C4 (amended): the recorded frame rectangles are always pairwise
non-overlapping; and whenever the initial side is at least 2 and every
sprite's width and height fit within the initial side, every frame lies
entirely inside the final atlas bounds. (Without those hypotheses a frame
can exceed the final side — see the counterexample.) -/
theorem frames_disjoint_and_bounded (sprites : List Sprite) :
    (pack_sprites sprites).frames.Pairwise NoOverlap ∧
      ∀ f ∈ (pack_sprites sprites).frames,
        (2 ≤ atlas_size_init (totalArea sprites) ∧
            ∀ s ∈ sprites, s.w ≤ atlas_size_init (totalArea sprites) ∧
              s.h ≤ atlas_size_init (totalArea sprites)) →
          f.x + f.w ≤ (pack_sprites sprites).size ∧
            f.y + f.h ≤ (pack_sprites sprites).size := by
  constructor
  · have h : DisjInv (pack_sprites sprites) := by
      rw [pack_sprites, packFrom]
      exact packFrom_induction (fun st s hst => packStep_disj st s hst) _ _
        ⟨List.Pairwise.nil, by simp, by simp, by simp⟩
    exact h.1
  · rintro f hf ⟨h2, hdim⟩
    have h : BoundInv (atlas_size_init (totalArea sprites))
        (pack_sprites sprites) := by
      rw [pack_sprites, packFrom]
      refine packFrom_induction_mem _
        (fun st s hs hst => packStep_bound h2 st s
          (hdim s (mem_sortDesc hs)).1 (hdim s (mem_sortDesc hs)).2 hst) _
        ⟨le_rfl, by rw [atlas_size_init]; exact np2_isPow2 _, by simp, by simp⟩
    exact h.2.2.2 f hf

lemma atlas_init_small : atlas_size_init (totalArea smallSprites) = 8 := by
  rw [show totalArea smallSprites = 32 from by decide, atlas_size_init_eq,
    specInitialSide, show (36 * 32 : ℕ) = 1152 from by norm_num,
    natSqrt_eq (m := 1152) (k := 33) (by norm_num) (by norm_num),
    show (33 / 5 : ℕ) = 6 from by norm_num,
    np2_pow_eval (k := 2) (by norm_num) (by norm_num)]
  norm_num

lemma packFrom_small : packFrom 8 (sortDesc smallSprites) =
    ⟨8, 8, 0, 4, [⟨"a", 0, 0, 4, 4⟩, ⟨"b", 4, 0, 4, 4⟩], []⟩ := by
  rw [show sortDesc smallSprites = smallSprites from by decide]
  simp [packFrom, smallSprites, packStep, Sprite.w, Sprite.h]

/-- C4 witness: on the two 4×4 sprites packed into the 8×8 atlas, the
first frame lies within the final bounds. -/
theorem frames_disjoint_and_bounded_witness :
    2 ≤ atlas_size_init (totalArea smallSprites) ∧
      (⟨"a", 0, 0, 4, 4⟩ : Frame) ∈ (pack_sprites smallSprites).frames ∧
      0 + 4 ≤ (pack_sprites smallSprites).size ∧
      0 + 4 ≤ (pack_sprites smallSprites).size := by
  have hmem : (⟨"a", 0, 0, 4, 4⟩ : Frame) ∈ (pack_sprites smallSprites).frames := by
    rw [pack_sprites, atlas_init_small, packFrom_small]
    decide
  have h := (frames_disjoint_and_bounded smallSprites).2 _ hmem
    ⟨by rw [atlas_init_small]; norm_num,
     by intro s hs; rw [atlas_init_small]; fin_cases hs <;> exact ⟨by norm_num [Sprite.w], by norm_num [Sprite.h]⟩⟩
  exact ⟨by rw [atlas_init_small]; norm_num, hmem, h.1, h.2⟩

/-- C4 counterexample: on two 1×1 sprites the final atlas side is 1 but
the second frame is recorded at `y = 1` with height 1, so `y + h = 2`
exceeds the final atlas bound. -/
theorem frame_out_of_bounds_counterexample :
    (pack_sprites twoUnitSprites).size = 1 ∧
      (⟨"b", 0, 1, 1, 1⟩ : Frame) ∈ (pack_sprites twoUnitSprites).frames ∧
      ¬ (1 + 1 ≤ (pack_sprites twoUnitSprites).size) := by
  rw [pack_sprites, atlas_init_twoUnit, packFrom_twoUnit]
  exact ⟨rfl, by decide, by norm_num⟩

lemma filter_orderedInsert (k : ℕ) (x : Sprite) (l : List Sprite) :
    (List.orderedInsert byDescH x l).filter (fun s => s.h = k) =
      if x.h = k then x :: l.filter (fun s => s.h = k)
      else l.filter (fun s => s.h = k) := by
  induction l with
  | nil =>
      rw [List.orderedInsert, List.filter_cons]
      split_ifs with h1 h2 <;> simp_all
  | cons y t ih =>
      rw [List.orderedInsert]
      by_cases hr : byDescH x y
      · rw [if_pos hr, List.filter_cons, List.filter_cons]
        split_ifs with h1 h2 <;> simp_all
      · rw [if_neg hr, List.filter_cons, List.filter_cons, ih]
        have hlt : x.h < y.h := by
          unfold byDescH at hr
          omega
        split_ifs with h1 h2 <;> simp_all

/-- Stability of the packer's sort: for every height class, the sorted
list keeps the original relative order of the sprites of that height. -/
lemma filter_sortDesc (k : ℕ) (l : List Sprite) :
    (sortDesc l).filter (fun s => s.h = k) = l.filter (fun s => s.h = k) := by
  induction l with
  | nil => rfl
  | cons x t ih =>
      rw [sortDesc, List.insertionSort, ← sortDesc, filter_orderedInsert,
        List.filter_cons, ih]
      split_ifs with h1 h2 <;> simp_all

lemma packStep_frames (st : PackState) (s : Sprite) :
    ∃ a b, (packStep st s).frames = st.frames ++ [⟨s.1, a, b, s.w, s.h⟩] := by
  simp only [packStep]
  split_ifs <;> exact ⟨_, _, rfl⟩

/-- The placement walk records exactly one frame per sprite, in walk
order: the frame names are the sorted sprite names. -/
lemma packFrom_names (l : List Sprite) :
    ∀ st : PackState, ((l.foldl packStep st).frames).map Frame.name =
      (st.frames.map Frame.name) ++ l.map (fun s => s.1) := by
  induction l with
  | nil => simp
  | cons s t ih =>
      intro st
      rw [List.foldl_cons, ih]
      obtain ⟨a, b, hf⟩ := packStep_frames st s
      rw [hf]
      simp

/-- C8: the packer visits sprites in height-descending order with ties
keeping insertion order — the sorted list is height-sorted, each height
class keeps its original relative order (stability), frames are recorded
in exactly that order, and on heights `[32, 16, 16]` the visit order is
the insertion order `a, b, c`. -/
theorem pack_visits_sorted_stable (sprites : List Sprite) :
    List.Sorted byDescH (sortDesc sprites) ∧
      (∀ k, (sortDesc sprites).filter (fun s => s.h = k) =
        sprites.filter (fun s => s.h = k)) ∧
      ((pack_sprites sprites).frames.map Frame.name =
        (sortDesc sprites).map (fun s => s.1)) ∧
      sortDesc heightsSprites = heightsSprites ∧
      (pack_sprites heightsSprites).frames.map Frame.name = ["a", "b", "c"] := by
  have h3 : ∀ l : List Sprite, (pack_sprites l).frames.map Frame.name =
      (sortDesc l).map (fun s => s.1) := by
    intro l
    rw [pack_sprites, packFrom, packFrom_names]
    simp
  have h4 : sortDesc heightsSprites = heightsSprites := by decide
  refine ⟨List.sorted_insertionSort byDescH sprites,
    fun k => filter_sortDesc k sprites, h3 sprites, h4, ?_⟩
  rw [h3 heightsSprites, h4]
  decide

/-- C3: the tile seed is not a function of the asset name alone. Two
runs whose runtime string-hash functions differ (CPython salts `hash`
per process) derive different seeds for the same seedless tile, while an
explicit `noise_seed` is unaffected. -/
theorem derive_seed_depends_on_runtime_hash :
    ∃ h1 h2 : String → ℤ,
      derive_seed h1 parkTile ≠ derive_seed h2 parkTile ∧
        derive_seed h1 parkTileSeeded = derive_seed h2 parkTileSeeded := by
  refine ⟨fun _ => 0, fun _ => 1, ?_, rfl⟩
  decide

/-- C2 (amended): for every shape-family asset at least 8×8, a pixel of
the 2-pixel inset border carries the base fill — `palette[0]` with its
own alpha (clamped at 255) — or, for the prop family only, the opaque
black edge outline; it is never left transparent, because the solid fill
covers the whole grid before the inset interior is painted. -/
theorem border_is_base_fill
    (ph : String → ℤ) (ns : ℤ → ℚ → ℚ → ℚ) (cfg : AssetConfig) (i : ℕ)
    (pal : List String) (c0 : String) (base : Rgba) (px : ℕ → ℕ → Rgba)
    (y x : ℕ)
    (hty : cfg.type = "prop" ∨ cfg.type = "furniture" ∨ cfg.type = "clutter" ∨
      cfg.type = "npc")
    (hw : 8 ≤ cfg.size.1) (hh : 8 ≤ cfg.size.2)
    (hpal : effPalette cfg i = some pal)
    (hc0 : pal.head? = some c0)
    (hb : hex_to_rgba c0 = some base)
    (hg : generate_pixel_grid ph ns cfg i = some px)
    (hborder : x < 2 ∨ cfg.size.1 ≤ x + 2 ∨ y < 2 ∨ cfg.size.2 ≤ y + 2) :
    px y x = ⟨base.r, base.g, base.b, if base.a < 255 then base.a else 255⟩ ∨
      ((cfg.type = "prop" ∨ cfg.type = "furniture" ∨ cfg.type = "clutter") ∧
        px y x = ⟨0, 0, 0, 255⟩) := by
  have htile : ¬ cfg.type = "tile" := by
    rcases hty with h | h | h | h <;> rw [h] <;> decide
  rw [generate_pixel_grid] at hg
  simp only [hpal, Option.bind_eq_bind', Option.some_bind, if_neg htile,
    hc0, hb, if_pos (And.intro hw hh)] at hg
  have hnotin : ¬ (2 ≤ x ∧ x + 2 < cfg.size.1 ∧ 2 ≤ y ∧ y + 2 < cfg.size.2) := by
    rintro ⟨a1, a2, a3, a4⟩
    omega
  by_cases hnpc : cfg.type = "npc"
  · rw [if_pos hnpc] at hg
    have hfam : ¬ (cfg.type = "prop" ∨ cfg.type = "furniture" ∨
        cfg.type = "clutter") := by
      rw [hnpc]; decide
    have hex : ∃ body : Rgba, px = fun y x =>
        if 2 ≤ x ∧ x + 2 < cfg.size.1 ∧ 2 ≤ y ∧ y + 2 < cfg.size.2 ∧
            (y : ℚ) < (cfg.size.2 : ℚ) * 0.7 then body
        else ⟨base.r, base.g, base.b, if base.a < 255 then base.a else 255⟩ := by
      by_cases hlen : 1 < pal.length
      · rw [if_pos hlen] at hg
        cases hgv : pal.get? 1 with
        | none => rw [hgv] at hg; simp at hg
        | some bh =>
            rw [hgv] at hg
            simp only [Option.some_bind] at hg
            cases hbd : hex_to_rgba bh with
            | none => rw [hbd] at hg; simp at hg
            | some body =>
                rw [hbd] at hg
                simp only [Option.some_bind, Option.pure_def, if_neg hfam] at hg
                exact ⟨body, (Option.some.inj hg).symm⟩
      · rw [if_neg hlen] at hg
        cases hgv : rotate_hue c0 30 with
        | none => rw [hgv] at hg; simp at hg
        | some bh =>
            rw [hgv] at hg
            simp only [Option.some_bind] at hg
            cases hbd : hex_to_rgba bh with
            | none => rw [hbd] at hg; simp at hg
            | some body =>
                rw [hbd] at hg
                simp only [Option.some_bind, Option.pure_def, if_neg hfam] at hg
                exact ⟨body, (Option.some.inj hg).symm⟩
    obtain ⟨body, rfl⟩ := hex
    left
    have hc5 : ¬ (2 ≤ x ∧ x + 2 < cfg.size.1 ∧ 2 ≤ y ∧ y + 2 < cfg.size.2 ∧
        (y : ℚ) < (cfg.size.2 : ℚ) * 0.7) := by
      rintro ⟨a1, a2, a3, a4, a5⟩
      exact hnotin ⟨a1, a2, a3, a4⟩
    simp only [if_neg hc5]
  · have hfam : cfg.type = "prop" ∨ cfg.type = "furniture" ∨
        cfg.type = "clutter" := by
      rcases hty with h | h | h | h
      · exact Or.inl h
      · exact Or.inr (Or.inl h)
      · exact Or.inr (Or.inr h)
      · exact absurd h hnpc
    rw [if_neg hnpc] at hg
    by_cases hlen : 1 < pal.length
    · rw [if_pos hlen] at hg
      cases hdet : (pal.get? 1).bind hex_to_rgba with
      | none => rw [hdet] at hg; simp at hg
      | some det =>
          rw [hdet] at hg
          simp only [Option.some_bind, Option.pure_def, if_pos hfam] at hg
          have hpx := Option.some.inj hg
          rw [← hpx]
          by_cases hmask : edgeOver50 cfg.size.1 cfg.size.2
            (fun y x => if 2 ≤ x ∧ x + 2 < cfg.size.1 ∧ 2 ≤ y ∧
                y + 2 < cfg.size.2 then det
              else ⟨base.r, base.g, base.b, if base.a < 255 then base.a else 255⟩)
            y x = true
          · right
            exact ⟨hfam, by simp only [if_pos hmask]⟩
          · left
            simp only [if_neg hmask, if_neg hnotin]
    · rw [if_neg hlen] at hg
      simp only [Option.some_bind, Option.pure_def, if_pos hfam] at hg
      have hpx := Option.some.inj hg
      rw [← hpx]
      by_cases hmask : edgeOver50 cfg.size.1 cfg.size.2
        (fun _ _ => ⟨base.r, base.g, base.b, if base.a < 255 then base.a else 255⟩)
        y x = true
      · right
        exact ⟨hfam, by simp only [if_pos hmask]⟩
      · left
        simp only [if_neg hmask]

lemma hsl_ff0000 : hslOfRgb 255 0 0 = (0, 1, 1/2) := by
  norm_num [hslOfRgb, qmod, max_def, min_def, Prod.mk.injEq]

lemma hsl_to_rgb_ff :
    hsl_to_rgb (qmod (0 + 30) 360 / 360) 1 (1/2) = (255, 127, 0) := by
  rw [show qmod (0 + 30) 360 = 30 from by norm_num [qmod]]
  norm_num [hsl_to_rgb, hue_to_rgb, pyIntQ, Prod.mk.injEq]
  decide

lemma rot_ff0000 : rotate_hue "#ff0000" 30 = some "#ff7f00" := by
  rw [rotate_hue, show hex_to_rgba "#ff0000" = some ⟨255, 0, 0, 255⟩ from by decide]
  simp only [Option.bind_eq_bind', Option.some_bind]
  rw [hsl_ff0000]
  simp only [hsl_to_rgb_ff]
  decide

lemma hsl_112233 : hslOfRgb 17 34 51 = (210, 2/3, 2/15) := by
  norm_num [hslOfRgb, qmod, max_def, min_def, Prod.mk.injEq]

lemma hsl_to_rgb_0b :
    hsl_to_rgb (qmod (210 + 30) 360 / 360) (2/3) (2/15) = (11, 11, 56) := by
  rw [qmod_rot30]
  norm_num [hsl_to_rgb, hue_to_rgb, pyIntQ, Prod.mk.injEq]
  decide

lemma rot_112233 : rotate_hue "#11223344" 30 = some "#0b0b38" := by
  rw [rotate_hue,
    show hex_to_rgba "#11223344" = some ⟨17, 34, 51, 68⟩ from by decide]
  simp only [Option.bind_eq_bind', Option.some_bind]
  rw [hsl_112233]
  simp only [hsl_to_rgb_0b]
  decide

lemma effPalette_npcRed8 : effPalette npcRed8 0 = some ["#ff0000"] := by
  rw [effPalette, if_neg]
  · rfl
  · rintro ⟨h0, _⟩
    omega

lemma gen_npcRed8 : generate_pixel_grid dummyHash dummyNoise npcRed8 0 =
    some (fun (y x : ℕ) =>
      if 2 ≤ x ∧ x + 2 < 8 ∧ 2 ≤ y ∧ y + 2 < 8 ∧ (y : ℚ) < (8 : ℚ) * 0.7
      then ⟨255, 127, 0, 255⟩ else ⟨255, 0, 0, 255⟩) := by
  rw [generate_pixel_grid, effPalette_npcRed8]
  simp only [Option.bind_eq_bind', Option.some_bind]
  rw [if_neg (by decide : ¬ npcRed8.type = "tile")]
  simp only [npcRed8, List.head?, Option.some_bind,
    show hex_to_rgba "#ff0000" = some ⟨255, 0, 0, 255⟩ from by decide]
  rw [if_pos (by norm_num : (8:ℕ) ≤ 8 ∧ (8:ℕ) ≤ 8), if_pos trivial,
    if_neg (by decide : ¬ 1 < (["#ff0000"] : List String).length), rot_ff0000]
  simp only [Option.some_bind, Option.pure_def,
    show hex_to_rgba "#ff7f00" = some ⟨255, 127, 0, 255⟩ from by decide]
  rw [if_neg (by decide : ¬ (("npc" : String) = "prop" ∨
    ("npc" : String) = "furniture" ∨ ("npc" : String) = "clutter"))]
  simp [Nat.cast_ofNat]

lemma effPalette_npcGlass8 : effPalette npcGlass8 0 = some ["#11223344"] := by
  rw [effPalette, if_neg]
  · rfl
  · rintro ⟨h0, _⟩
    omega

lemma gen_npcGlass8 : generate_pixel_grid dummyHash dummyNoise npcGlass8 0 =
    some (fun (y x : ℕ) =>
      if 2 ≤ x ∧ x + 2 < 8 ∧ 2 ≤ y ∧ y + 2 < 8 ∧ (y : ℚ) < (8 : ℚ) * 0.7
      then ⟨11, 11, 56, 255⟩ else ⟨17, 34, 51, 68⟩) := by
  rw [generate_pixel_grid, effPalette_npcGlass8]
  simp only [Option.bind_eq_bind', Option.some_bind]
  rw [if_neg (by decide : ¬ npcGlass8.type = "tile")]
  simp only [npcGlass8, List.head?, Option.some_bind,
    show hex_to_rgba "#11223344" = some ⟨17, 34, 51, 68⟩ from by decide]
  rw [if_pos (by norm_num : (8:ℕ) ≤ 8 ∧ (8:ℕ) ≤ 8), if_pos trivial,
    if_neg (by decide : ¬ 1 < (["#11223344"] : List String).length), rot_112233]
  simp only [Option.some_bind, Option.pure_def,
    show hex_to_rgba "#0b0b38" = some ⟨11, 11, 56, 255⟩ from by decide]
  rw [if_neg (by decide : ¬ (("npc" : String) = "prop" ∨
    ("npc" : String) = "furniture" ∨ ("npc" : String) = "clutter"))]
  simp [Nat.cast_ofNat]

/-- C2 counterexample: the border pixel `(0, 0)` of the 8×8 npc with
base color `#ff0000` is the fully opaque base fill — its alpha is 255,
not zero. -/
theorem border_not_transparent_counterexample :
    (generate_pixel_grid dummyHash dummyNoise npcRed8 0).map (fun px => px 0 0) =
      some ⟨255, 0, 0, 255⟩ ∧ (255 : ℕ) ≠ 0 := by
  rw [gen_npcRed8, Option.map_some']
  refine ⟨?_, by norm_num⟩
  simp

/-- C2 witness: the amended statement at the border pixel `(7, 7)` of
the same 8×8 npc: the pixel is exactly the opaque base fill. -/
theorem border_is_base_fill_witness :
    8 ≤ npcRed8.size.1 ∧ 8 ≤ npcRed8.size.2 ∧
      (generate_pixel_grid dummyHash dummyNoise npcRed8 0).map (fun px => px 7 7) =
        some ⟨255, 0, 0, 255⟩ := by
  refine ⟨by norm_num [npcRed8], by norm_num [npcRed8], ?_⟩
  cases hg : generate_pixel_grid dummyHash dummyNoise npcRed8 0 with
  | none => rw [gen_npcRed8] at hg; simp at hg
  | some px =>
      rw [Option.map_some']
      have h := border_is_base_fill dummyHash dummyNoise npcRed8 0 ["#ff0000"]
        "#ff0000" ⟨255, 0, 0, 255⟩ px 7 7 (Or.inr (Or.inr (Or.inr rfl)))
        (by norm_num [npcRed8]) (by norm_num [npcRed8]) effPalette_npcRed8 rfl
        (by decide) hg (by right; left; norm_num [npcRed8])
      rcases h with h | ⟨hfam, _⟩
      · rw [h]
        simp
      · rcases hfam with hfam | hfam | hfam <;> simp [npcRed8] at hfam

lemma rotate_hue_target {c : String} {d : ℚ} {s : String}
    (h : rotate_hue c d = some s) :
    ∃ r g b, hex_to_rgba s = some ⟨r % 256, g % 256, b % 256, 255⟩ := by
  rw [rotate_hue] at h
  cases hc : hex_to_rgba c with
  | none => rw [hc] at h; simp at h
  | some c' =>
      rw [hc] at h
      simp only [Option.bind_eq_bind', Option.some_bind, Option.pure_def] at h
      obtain rfl := (Option.some.inj h).symm
      exact ⟨_, _, _, parse_rgb_to_hex _ _ _⟩

lemma mapM_mem {α β : Type} {f : α → Option β} :
    ∀ {l : List α} {out : List β}, l.mapM f = some out →
      ∀ b ∈ out, ∃ a, f a = some b := by
  intro l
  induction l with
  | nil =>
      intro out h b hb
      rw [List.mapM_nil] at h
      obtain rfl := (Option.some.inj h).symm
      simp at hb
  | cons a t ih =>
      intro out h b hb
      rw [List.mapM_cons] at h
      cases hfa : f a with
      | none => rw [hfa] at h; simp at h
      | some b0 =>
          rw [hfa] at h
          simp only [Option.bind_eq_bind', Option.some_bind] at h
          cases hmt : t.mapM f with
          | none => rw [hmt] at h; simp at h
          | some bs =>
              rw [hmt] at h
              simp only [Option.some_bind, Option.pure_def] at h
              obtain rfl := (Option.some.inj h).symm
              rcases List.mem_cons.mp hb with rfl | hb
              · exact ⟨a, hfa⟩
              · exact ih hmt b hb

/-- Every color of a variant palette (`variant_idx ≥ 1`, npc) parses with
alpha 255: it is a 6-digit output of `rotate_hue`. -/
lemma effPalette_variant_alpha {cfg : AssetConfig} {i : ℕ} {pal : List String}
    (hn : cfg.type = "npc") (hi : 1 ≤ i)
    (hpal : effPalette cfg i = some pal) {c : String} (hc : c ∈ pal) :
    ∃ r g b a, hex_to_rgba c = some ⟨r, g, b, a⟩ ∧ a = 255 := by
  rw [effPalette, if_pos (And.intro (by omega) hn)] at hpal
  obtain ⟨orig, horig⟩ := mapM_mem hpal c hc
  obtain ⟨r, g, b, hp⟩ := rotate_hue_target horig
  exact ⟨_, _, _, _, hp, rfl⟩

/-- C10: every pixel of every npc variant grid (`variant_idx ≥ 1`) is
fully opaque, because `rotate_hue` re-encodes every palette color as a
6-digit hex color, discarding the configured alpha; and the body of an
npc with a single-color palette is fully opaque for the same reason,
even when the configured color has partial alpha. -/
theorem npc_grids_alpha_full (ph : String → ℤ) (ns : ℤ → ℚ → ℚ → ℚ)
    (cfg : AssetConfig) :
    (∀ i px, 1 ≤ i → cfg.type = "npc" →
      generate_pixel_grid ph ns cfg i = some px → ∀ y x, (px y x).a = 255) ∧
    (∀ px y x, cfg.type = "npc" → cfg.palette.length = 1 →
      8 ≤ cfg.size.1 → 8 ≤ cfg.size.2 →
      generate_pixel_grid ph ns cfg 0 = some px →
      2 ≤ x → x + 2 < cfg.size.1 → 2 ≤ y → y + 2 < cfg.size.2 →
      (y : ℚ) < (cfg.size.2 : ℚ) * 0.7 → (px y x).a = 255) := by
  constructor
  · intro i px hi hn hg y x
    have htile : ¬ cfg.type = "tile" := by rw [hn]; decide
    have hfam : ¬ (cfg.type = "prop" ∨ cfg.type = "furniture" ∨
        cfg.type = "clutter") := by rw [hn]; decide
    rw [generate_pixel_grid] at hg
    cases hpal : effPalette cfg i with
    | none => rw [hpal] at hg; simp at hg
    | some pal =>
        rw [hpal] at hg
        simp only [Option.bind_eq_bind', Option.some_bind, if_neg htile] at hg
        cases hc0 : pal.head? with
        | none => rw [hc0] at hg; simp at hg
        | some c0 =>
            rw [hc0] at hg
            simp only [Option.some_bind] at hg
            have hc0mem : c0 ∈ pal := List.mem_of_mem_head? (by rw [hc0]; rfl)
            obtain ⟨r, g, b, a, hparse, ha⟩ :=
              effPalette_variant_alpha hn hi hpal hc0mem
            rw [hparse] at hg
            simp only [Option.some_bind] at hg
            by_cases hwh : 8 ≤ cfg.size.1 ∧ 8 ≤ cfg.size.2
            · rw [if_pos hwh, if_pos hn] at hg
              by_cases hlen : 1 < pal.length
              · rw [if_pos hlen] at hg
                cases hgv : pal.get? 1 with
                | none => rw [hgv] at hg; simp at hg
                | some bh =>
                    rw [hgv] at hg
                    simp only [Option.some_bind] at hg
                    obtain ⟨r2, g2, b2, a2, hp2, ha2⟩ :=
                      effPalette_variant_alpha hn hi hpal (List.get?_mem hgv)
                    rw [hp2] at hg
                    simp only [Option.some_bind, Option.pure_def,
                      if_neg hfam] at hg
                    obtain rfl := (Option.some.inj hg).symm
                    simp only
                    split_ifs <;> simp [ha2, ha]
              · rw [if_neg hlen] at hg
                cases hgv : rotate_hue c0 30 with
                | none => rw [hgv] at hg; simp at hg
                | some bh =>
                    rw [hgv] at hg
                    simp only [Option.some_bind] at hg
                    obtain ⟨r2, g2, b2, hp2⟩ := rotate_hue_target hgv
                    cases hbd : hex_to_rgba bh with
                    | none => rw [hbd] at hg; simp at hg
                    | some body =>
                        have hba : body.a = 255 := by
                          rw [hp2] at hbd
                          obtain rfl := Option.some.inj hbd
                          rfl
                        rw [hbd] at hg
                        simp only [Option.some_bind, Option.pure_def,
                          if_neg hfam] at hg
                        obtain rfl := (Option.some.inj hg).symm
                        simp only
                        split_ifs <;> simp [hba, ha]
            · rw [if_neg hwh] at hg
              simp only [Option.some_bind, Option.pure_def, if_neg hfam] at hg
              obtain rfl := (Option.some.inj hg).symm
              simp [ha]
  · intro px y x hn hlen1 hw hh hg hx1 hx2 hy1 hy2 hyq
    have htile : ¬ cfg.type = "tile" := by rw [hn]; decide
    have hfam : ¬ (cfg.type = "prop" ∨ cfg.type = "furniture" ∨
        cfg.type = "clutter") := by rw [hn]; decide
    have hpal : effPalette cfg 0 = some cfg.palette := by
      rw [effPalette, if_neg]
      rintro ⟨h0, _⟩
      omega
    rw [generate_pixel_grid, hpal] at hg
    simp only [Option.bind_eq_bind', Option.some_bind, if_neg htile] at hg
    cases hc0 : cfg.palette.head? with
    | none => rw [hc0] at hg; simp at hg
    | some c0 =>
        rw [hc0] at hg
        simp only [Option.some_bind] at hg
        cases hb : hex_to_rgba c0 with
        | none => rw [hb] at hg; simp at hg
        | some base =>
            rw [hb] at hg
            simp only [Option.some_bind, if_pos (And.intro hw hh),
              if_pos hn, if_neg (show ¬ 1 < cfg.palette.length by omega)] at hg
            cases hgv : rotate_hue c0 30 with
            | none => rw [hgv] at hg; simp at hg
            | some bh =>
                rw [hgv] at hg
                simp only [Option.some_bind] at hg
                obtain ⟨r2, g2, b2, hp2⟩ := rotate_hue_target hgv
                cases hbd : hex_to_rgba bh with
                | none => rw [hbd] at hg; simp at hg
                | some body =>
                    have hba : body.a = 255 := by
                      rw [hp2] at hbd
                      obtain rfl := Option.some.inj hbd
                      rfl
                    rw [hbd] at hg
                    simp only [Option.some_bind, Option.pure_def,
                      if_neg hfam] at hg
                    obtain rfl := (Option.some.inj hg).symm
                    simp only [if_pos (show 2 ≤ x ∧ x + 2 < cfg.size.1 ∧ 2 ≤ y ∧
                      y + 2 < cfg.size.2 ∧ (y : ℚ) < (cfg.size.2 : ℚ) * 0.7 from
                      ⟨hx1, hx2, hy1, hy2, hyq⟩)]
                    exact hba

/-- C10 witness: the body pixel `(3, 3)` of the 8×8 npc whose single
palette color `#11223344` has partial alpha is fully opaque. -/
theorem npc_grids_alpha_full_witness :
    (generate_pixel_grid dummyHash dummyNoise npcGlass8 0).map
      (fun px => (px 3 3).a) = some 255 := by
  cases hg : generate_pixel_grid dummyHash dummyNoise npcGlass8 0 with
  | none => rw [gen_npcGlass8] at hg; simp at hg
  | some px =>
      rw [Option.map_some']
      exact congrArg some
        ((npc_grids_alpha_full dummyHash dummyNoise npcGlass8).2 px 3 3 rfl rfl
          (by norm_num [npcGlass8]) (by norm_num [npcGlass8]) hg (by norm_num)
          (by norm_num [npcGlass8]) (by norm_num) (by norm_num [npcGlass8])
          (by norm_num [npcGlass8]))

lemma specMinContrast_eq (ty : String) : specMinContrast ty = minContrast ty := rfl

lemma luminance_isSome {c : String} (h : (hex_to_rgba c).isSome) :
    ∃ l, luminance c = some l := by
  obtain ⟨c2, hc⟩ := Option.isSome_iff_exists.mp h
  refine Option.isSome_iff_exists.mp ?_
  rw [luminance, hc]
  rfl

lemma checkContrast_isSome {c1 c2 : String}
    (h1 : (hex_to_rgba c1).isSome) (h2 : (hex_to_rgba c2).isSome) :
    ∃ r, checkContrast c1 c2 = some r := by
  obtain ⟨l1, hl1⟩ := luminance_isSome h1
  obtain ⟨l2, hl2⟩ := luminance_isSome h2
  refine Option.isSome_iff_exists.mp ?_
  rw [checkContrast, hl1]
  simp only [Option.bind_eq_bind', Option.some_bind]
  rw [hl2]
  rfl

open Classical in
lemma mapM_contrast_pairs (name ty : String) :
    ∀ pairs : List (String × String),
      (∀ p ∈ pairs, (hex_to_rgba p.1).isSome ∧ (hex_to_rgba p.2).isSome) →
      ∃ ls : List (List VError),
        pairs.mapM (fun p => (checkContrast p.1 p.2).map (fun r =>
            if r < minContrast ty then [VError.lowContrast name] else [])) =
          some ls ∧
        ls.flatten.length =
          (pairs.map (fun p => if pairBelowMin ty p then 1 else 0)).sum := by
  intro pairs
  induction pairs with
  | nil =>
      intro _
      refine ⟨[], ?_, rfl⟩
      rw [List.mapM_nil]
      rfl
  | cons p t ih =>
      intro hp
      obtain ⟨ls, hls, hlen⟩ := ih (fun q hq => hp q (List.mem_cons_of_mem p hq))
      obtain ⟨h1, h2⟩ := hp p (List.mem_cons_self p t)
      obtain ⟨r, hr⟩ := checkContrast_isSome h1 h2
      refine ⟨(if r < minContrast ty then [VError.lowContrast name] else []) :: ls,
        ?_, ?_⟩
      · simp only [List.mapM_cons]
        rw [hr]
        simp only [Option.map_some', Option.bind_eq_bind', Option.some_bind]
        rw [hls]
        simp only [Option.some_bind, Option.pure_def]
      · rw [List.flatten_cons, List.map_cons, List.length_append, hlen,
          List.sum_cons]
        congr 1
        by_cases hb : r < minContrast ty
        · rw [if_pos hb, if_pos (show pairBelowMin ty p from
            ⟨r, hr, by rw [specMinContrast_eq]; exact hb⟩)]
          rfl
        · rw [if_neg hb, if_neg]
          · rfl
          · rintro ⟨r2, hr2, hb2⟩
            rw [hr] at hr2
            obtain rfl := Option.some.inj hr2
            rw [specMinContrast_eq] at hb2
            exact hb hb2

open Classical in
lemma sizeErr_length (a : RawAsset) :
    (if a.size.1 % 4 ≠ 0 ∨ a.size.2 % 4 ≠ 0 then
        [VError.sizeDiv4 a.name a.size.1 a.size.2] else []).length =
      (if sizeRuleOK a then 0 else 1) := by
  by_cases h : sizeRuleOK a
  · obtain ⟨h1, h2⟩ := h
    rw [if_pos (show sizeRuleOK a from ⟨h1, h2⟩), if_neg]
    · rfl
    · rintro (hc | hc)
      · exact hc h1
      · exact hc h2
  · rw [if_neg h, if_pos]
    · rfl
    · rw [sizeRuleOK] at h
      push_neg at h
      by_cases h1 : a.size.1 % 4 = 0
      · exact Or.inr (h h1)
      · exact Or.inl h1

open Classical in
lemma dimErr_length (a : RawAsset) :
    (if 128 < max a.size.1 a.size.2 then
        [VError.maxDim a.name (max a.size.1 a.size.2)] else []).length =
      (if dimRuleOK a then 0 else 1) := by
  by_cases h : dimRuleOK a
  · rw [if_pos h, if_neg (not_lt.mpr h)]
    rfl
  · rw [if_neg h, if_pos (not_le.mp h)]
    rfl

open Classical in
lemma assetErrs_spec (a : RawAsset)
    (hwf : ∀ c ∈ a.palette, (hex_to_rgba c).isSome) :
    ∃ l, assetErrs a = some l ∧ l.length = specViolationCount a := by
  by_cases hL : 1 < a.palette.length
  · have hp : ∀ p ∈ adjPairs a.palette,
        (hex_to_rgba p.1).isSome ∧ (hex_to_rgba p.2).isSome := by
      intro p hmem
      obtain ⟨h1, h2⟩ := List.of_mem_zip hmem
      exact ⟨hwf _ h1, hwf _ (List.mem_of_mem_tail h2)⟩
    obtain ⟨ls, hls, hlen⟩ :=
      mapM_contrast_pairs a.name a.type (adjPairs a.palette) hp
    refine ⟨(if a.size.1 % 4 ≠ 0 ∨ a.size.2 % 4 ≠ 0 then
        [VError.sizeDiv4 a.name a.size.1 a.size.2] else []) ++
      (if 128 < max a.size.1 a.size.2 then
        [VError.maxDim a.name (max a.size.1 a.size.2)] else []) ++ ls.flatten,
      ?_, ?_⟩
    · simp only [assetErrs, if_pos hL, contrastErrs, hls, Option.map_some']
    · rw [specViolationCount, if_pos hL, ← hlen]
      simp only [List.length_append, sizeErr_length, dimErr_length]
  · refine ⟨(if a.size.1 % 4 ≠ 0 ∨ a.size.2 % 4 ≠ 0 then
        [VError.sizeDiv4 a.name a.size.1 a.size.2] else []) ++
      (if 128 < max a.size.1 a.size.2 then
        [VError.maxDim a.name (max a.size.1 a.size.2)] else []) ++ [],
      ?_, ?_⟩
    · simp only [assetErrs, if_neg hL, Option.pure_def, Option.map_some']
    · rw [specViolationCount, if_neg hL]
      simp only [List.length_append, sizeErr_length, dimErr_length,
        List.length_nil]

lemma validate_config_eq (assets : List RawAsset) :
    validate_config assets = (assets.mapM assetErrs).map List.flatten := rfl

lemma validate_config_spec :
    ∀ assets : List RawAsset, wellFormedAssets assets →
      ∃ errs, validate_config assets = some errs ∧
        errs.length = (assets.map specViolationCount).sum := by
  intro assets
  induction assets with
  | nil =>
      intro _
      refine ⟨[], ?_, rfl⟩
      rw [validate_config_eq, List.mapM_nil]
      rfl
  | cons a t ih =>
      intro hwf
      obtain ⟨errs, herrs, hlen⟩ :=
        ih (fun x hx c hc => hwf x (List.mem_cons_of_mem a hx) c hc)
      obtain ⟨la, hla, hlena⟩ :=
        assetErrs_spec a (fun c hc => hwf a (List.mem_cons_self a t) c hc)
      rw [validate_config_eq] at herrs
      obtain ⟨es, hes, hflat⟩ := Option.map_eq_some'.mp herrs
      refine ⟨la ++ errs, ?_, ?_⟩
      · rw [validate_config_eq, List.mapM_cons, hla]
        simp only [Option.bind_eq_bind', Option.some_bind]
        rw [hes]
        simp only [Option.some_bind, Option.pure_def, Option.map_some',
          List.flatten_cons, hflat]
      · rw [List.length_append, hlena, hlen, List.map_cons, List.sum_cons]

open Classical in
lemma specViolationCount_eq_zero (a : RawAsset) :
    specViolationCount a = 0 ↔
      (sizeRuleOK a ∧ dimRuleOK a ∧ (1 < a.palette.length →
        ∀ p ∈ adjPairs a.palette, ¬ pairBelowMin a.type p)) := by
  rw [specViolationCount]
  constructor
  · intro h
    have hA : sizeRuleOK a := by
      by_contra hA
      rw [if_neg hA] at h
      omega
    have hB : dimRuleOK a := by
      by_contra hB
      rw [if_neg hB] at h
      omega
    refine ⟨hA, hB, ?_⟩
    intro hL p hp hpb
    rw [if_pos hA, if_pos hB, if_pos hL] at h
    have hS : ((adjPairs a.palette).map
        (fun p => if pairBelowMin a.type p then 1 else 0)).sum = 0 := by omega
    have hz := List.sum_eq_zero_iff.mp hS _ (List.mem_map.mpr ⟨p, hp, rfl⟩)
    rw [if_pos hpb] at hz
    exact one_ne_zero hz
  · rintro ⟨hA, hB, hC⟩
    rw [if_pos hA, if_pos hB]
    by_cases hL : 1 < a.palette.length
    · rw [if_pos hL]
      have hS : ((adjPairs a.palette).map
          (fun p => if pairBelowMin a.type p then 1 else 0)).sum = 0 := by
        apply List.sum_eq_zero_iff.mpr
        intro x hx
        obtain ⟨p, hp, rfl⟩ := List.mem_map.mp hx
        rw [if_neg (hC hL p hp)]
      omega
    · rw [if_neg hL]

/-- C5: under a well-formed document (every palette color parses),
`validate_config` returns (never throws) a list with exactly one entry
per rule violation across every asset — rule 1 (size divisible by 4),
rule 2 (max dimension at most 128), and, only for palettes longer than
one color, one entry per consecutive pair below the kind threshold —
and the list is empty exactly when no asset violates any rule. -/
theorem validator_matches_rules (assets : List RawAsset)
    (hwf : wellFormedAssets assets) :
    (validate_config assets).map List.length =
        some ((assets.map specViolationCount).sum) ∧
      (validate_config assets = some [] ↔
        ∀ a ∈ assets, sizeRuleOK a ∧ dimRuleOK a ∧
          (1 < a.palette.length →
            ∀ p ∈ adjPairs a.palette, ¬ pairBelowMin a.type p)) := by
  obtain ⟨errs, herrs, hlen⟩ := validate_config_spec assets hwf
  constructor
  · rw [herrs, Option.map_some', hlen]
  · rw [herrs]
    constructor
    · intro h
      obtain rfl := Option.some.inj h
      intro a ha
      have hsum : (assets.map specViolationCount).sum = 0 := hlen.symm
      have hz := List.sum_eq_zero_iff.mp hsum _
        (List.mem_map.mpr ⟨a, ha, rfl⟩)
      exact (specViolationCount_eq_zero a).mp hz
    · intro h
      congr 1
      rw [← List.length_eq_zero, hlen]
      apply List.sum_eq_zero_iff.mpr
      intro x hx
      obtain ⟨a, ha, rfl⟩ := List.mem_map.mp hx
      exact (specViolationCount_eq_zero a).mpr (h a ha)

/-- C5 witness: a two-asset document — a 30×32 tile (one size violation)
and a 200×64 prop (one dimension violation), each with a singleton
palette — is well formed and yields exactly two accumulated errors. -/
theorem validator_matches_rules_witness :
    wellFormedAssets [va1, va2] ∧
      (validate_config [va1, va2]).map List.length = some 2 := by
  have hwf : wellFormedAssets [va1, va2] := by
    unfold wellFormedAssets
    decide
  refine ⟨hwf, ?_⟩
  have h := (validator_matches_rules [va1, va2] hwf).1
  rw [h, List.map_cons, List.map_cons, List.map_nil, List.sum_cons,
    List.sum_cons, List.sum_nil]
  rw [specViolationCount, specViolationCount]
  rw [if_neg (show ¬ sizeRuleOK va1 from by decide),
    if_pos (show dimRuleOK va1 from by decide),
    if_neg (show ¬ 1 < va1.palette.length from by decide),
    if_pos (show sizeRuleOK va2 from by decide),
    if_neg (show ¬ dimRuleOK va2 from by decide),
    if_neg (show ¬ 1 < va2.palette.length from by decide)]
  decide

end AssetGen
